import Mathlib

/-!
# BBTKv2 serial driver

A shallow embedding of the driver in `src/bbtkv2.go` and the properties of its
command/response protocol. The repository holds a second, older copy of the driver,
`src/gobbtkv2.go`. Its `Connect`, `ReadLine`, `IsAlive` and `SetSmoothing` have the
same text; its `SendCommand` first resets the port buffers and returns without
writing when a reset fails, its `ClearTimingData` accepts only `FRMT;` as first line
without a warning, and its capture loop has no completion-marker test. Of the older
copy, `SendCommand` and `CaptureEvents` are embedded as well, under the prefix
`Gobbtkv2`.

Modelling conventions

* A Go `string` or `[]byte` is a `List Char`, one character per byte.
* A Go `error` is identified with the text returned by its `Error()` method.
* The receiver `b bbtkv2`, the serial port behind it, the buffered reader over the
  port, the process-wide `DEBUG` flag and the standard logger are gathered in one
  state record which every method takes and returns.
* The outcome of the k-th `port.Write` and of the k-th `port.Read` is given by the
  environment (`writeErr`, `reads`); the bytes the buffered reader can still deliver
  are `pending`, after which `ReadString` fails with `readErr`. Line reads through
  the buffered reader and raw reads of the port are scripted separately: no method
  mixes the two.
* `time.Sleep` and the prints to standard output have no effect on the state and
  are left out.
* Loops that the Go code runs without a bound take a `fuel` argument counting
  iterations; `Run.timeout` is the outcome when the fuel is used up.
-/

namespace Bbtkv2

/-- Bytes of a Go `string` or `[]byte`. -/
abbrev Bytes := List Char

/-- Go `error` value, identified with its message. -/
abbrev GoError := Bytes

/-- Result of one `port.Read(buff)`: either a chunk of received bytes (empty on a
read timeout) with a nil error, or a transport error. -/
inductive ReadOutcome where
  | data (chunk : Bytes)
  | fail (err : GoError)

/-- One call of `log.Printf` / `log.Fatalf` / `log.Fatal`: the format text and the
operand, kept unrendered. -/
structure LogEntry where
  format : Bytes
  arg : Bytes
deriving DecidableEq

/-- State of the driver and of its environment. -/
structure bbtkv2 where
  /-- the global `DEBUG` flag -/
  DEBUG : Bool
  /-- error returned by the k-th call of `port.Write` (`none` is a nil error) -/
  writeErr : Nat → Option GoError
  /-- arguments of the calls of `port.Write` made so far, oldest first -/
  writes : List Bytes
  /-- bytes that `reader` (the `bufio.Reader` over the port) can still deliver -/
  pending : Bytes
  /-- error of `reader.ReadString` once `pending` holds no delimiter -/
  readErr : GoError
  /-- outcome of the k-th call of `port.Read` -/
  reads : Nat → ReadOutcome
  /-- number of calls of `port.Read` made so far -/
  nreads : Nat
  /-- entries written by the standard logger so far, oldest first -/
  logs : List LogEntry

/-- How a method call ends. -/
inductive Run (α : Type) where
  /-- normal return with a value -/
  | returned (val : α) (b : bbtkv2)
  /-- the process exits in `log.Fatal` / `log.Fatalf` -/
  | fatal (b : bbtkv2)
  /-- fuel used up before the loop stopped -/
  | timeout

/-- Value of a run that returned. -/
def Run.val? {α : Type} : Run α → Option α
  | .returned v _ => some v
  | .fatal _ => none
  | .timeout => none

/-- State at the end of a run that returned or exited. -/
def Run.state? {α : Type} : Run α → Option bbtkv2
  | .returned _ b => some b
  | .fatal b => some b
  | .timeout => none

/-- Entry appended by `log.Printf(format, arg)`. -/
def logPrintf (b : bbtkv2) (format : Bytes) (arg : Bytes) : bbtkv2 :=
  { b with logs := b.logs ++ [⟨format, arg⟩] }

/-- Go `strings.Contains(s, substr)`. -/
def stringsContains : Bytes → Bytes → Bool
  | [], substr => substr.isPrefixOf []
  | c :: s, substr => substr.isPrefixOf (c :: s) || stringsContains s substr

/-- Go `byte('0' + d)`. -/
def digitByte (d : Nat) : Char := Char.ofNat (48 + d)

/-- Digit loop of `fmt.(*fmt).fmtInteger` in base 10: digits are stored in front of
`buf`, least significant first, while `u >= 10`; then the leading digit. The
iteration bound is the caller's. -/
def fmtIntegerLoop : Nat → Nat → Bytes → Bytes
  | 0, u, buf => digitByte (u % 10) :: buf
  | fuel + 1, u, buf =>
    if u ≥ 10 then
      let next := u / 10
      fmtIntegerLoop fuel next (digitByte (u - next * 10) :: buf)
    else
      digitByte u :: buf

/-- Go `fmt.Sprintf("%d", v)` for an integer operand of at most 64 bits: the sign,
then the digits of the magnitude (a 64-bit magnitude has at most 20 digits). -/
def SprintfD (v : Int) : Bytes :=
  if v < 0 then '-' :: fmtIntegerLoop 20 v.natAbs [] else fmtIntegerLoop 20 v.natAbs []

/-- Go `int` arithmetic result on a 64-bit platform: wrap into the signed range. -/
def wrapInt64 (x : Int) : Int := (x + 2 ^ 63) % 2 ^ 64 - 2 ^ 63

/-- The type `thresholds`; every field is a `uint8`. -/
structure thresholds where
  Mic1 : Nat
  Mic2 : Nat
  Sounder1 : Nat
  Sounder2 : Nat
  Opto1 : Nat
  Opto2 : Nat
  Opto3 : Nat
  Opto4 : Nat
deriving DecidableEq

/-- The variable `defaultThresholds`. -/
def defaultThresholds : thresholds :=
  { Mic1 := 0, Mic2 := 0, Sounder1 := 63, Sounder2 := 63,
    Opto1 := 110, Opto2 := 110, Opto3 := 110, Opto4 := 110 }

/-- The type `smoothingMask`. -/
structure smoothingMask where
  Mic1 : Bool
  Mic2 : Bool
  Opto4 : Bool
  Opto3 : Bool
  Opto2 : Bool
  Opto1 : Bool
deriving DecidableEq

/-- The variable `defaultSmoothingMask`. -/
def defaultSmoothingMask : smoothingMask :=
  { Mic1 := true, Mic2 := true, Opto4 := false, Opto3 := false,
    Opto2 := false, Opto1 := false }

/-- Method `SendCommand`: logs under `DEBUG`, hands `cmd + "\r\n"` to `port.Write`
and returns the error of that write. -/
def SendCommand (b : bbtkv2) (cmd : Bytes) : Option GoError × bbtkv2 :=
  let b1 := if b.DEBUG then logPrintf b "SendCommand: \"%v\"\n".toList cmd else b
  (b1.writeErr b1.writes.length, { b1 with writes := b1.writes ++ [cmd ++ "\r\n".toList] })

/-- Split at the first `delim`: the bytes up to and including it, and the rest. -/
def splitAtDelim (delim : Char) : Bytes → Option (Bytes × Bytes)
  | [] => none
  | c :: cs =>
    if c = delim then some ([c], cs)
    else
      match splitAtDelim delim cs with
      | none => none
      | some (s, rest) => some (c :: s, rest)

/-- Go `reader.ReadString(delim)`: the bytes up to and including the first `delim`
with a nil error; when no delimiter is left, everything still pending together with
the read error. -/
def ReadString (b : bbtkv2) (delim : Char) : (Bytes × Option GoError) × bbtkv2 :=
  match splitAtDelim delim b.pending with
  | some (s, rest) => ((s, none), { b with pending := rest })
  | none => ((b.pending, some b.readErr), { b with pending := [] })

/-- Method `ReadLine`. The slice `s[:len(s)-1]` is `s.take (s.length - 1)`. -/
def ReadLine (b : bbtkv2) : (Bytes × Option GoError) × bbtkv2 :=
  match ReadString b '\n' with
  | ((_, some err), b1) => (([], some ("Readline: ".toList ++ err)), b1)
  | ((s, none), b1) =>
    let b2 := if b1.DEBUG then logPrintf b1 "Readline: got \"%s\"\n".toList (s.take (s.length - 1))
              else b1
    ((s.take (s.length - 1), none), b2)

/-- Method `Connect`. -/
def Connect (b : bbtkv2) : Option GoError × bbtkv2 :=
  let b1 := (SendCommand b "CONN".toList).2
  match ReadLine b1 with
  | ((_, some err), b2) => (some err, b2)
  | ((resp, none), b2) =>
    if resp ≠ "BBTK;".toList then
      (some ("Connect: expected \"BBTK;\", got \"".toList ++ resp ++ "\"".toList), b2)
    else
      (none, b2)

/-- Method `IsAlive`. -/
def IsAlive (b : bbtkv2) : (Bool × Option GoError) × bbtkv2 :=
  match SendCommand b "ECHO".toList with
  | (some err, b1) => ((false, some ("IsAlive: ".toList ++ err)), b1)
  | (none, b1) =>
    match ReadLine b1 with
    | ((_, some err), b2) => ((false, some ("IsAlive: ".toList ++ err)), b2)
    | ((resp, none), b2) =>
      if resp ≠ "ECHO".toList then
        ((true, some ("IsAlive: Expected \"ECHO\", Got \"".toList ++ resp ++ "\"".toList)), b2)
      else
        ((true, none), b2)

/-- The text `strMask` built in `SetSmoothing`. -/
def strMask (mask : smoothingMask) : Bytes :=
  let s := "".toList
  let s := if mask.Mic1 then s ++ "1".toList else s ++ "0".toList
  let s := if mask.Mic2 then s ++ "1".toList else s ++ "0".toList
  let s := if mask.Opto4 then s ++ "1".toList else s ++ "0".toList
  let s := if mask.Opto3 then s ++ "1".toList else s ++ "0".toList
  let s := if mask.Opto2 then s ++ "1".toList else s ++ "0".toList
  let s := if mask.Opto1 then s ++ "1".toList else s ++ "0".toList
  s ++ "11".toList

/-- Method `SetSmoothing`. -/
def SetSmoothing (b : bbtkv2) (mask : smoothingMask) : Option GoError × bbtkv2 :=
  match SendCommand b "SMOO".toList with
  | (some err, b1) => (some ("SetSmoothing: ".toList ++ err), b1)
  | (none, b1) =>
    match SendCommand b1 (strMask mask) with
    | (some err, b2) => (some ("SetSmoothing: ".toList ++ err), b2)
    | (none, b2) => (none, b2)

/-- Method `SetThresholds`; the error of every send is dropped. -/
def SetThresholds (b : bbtkv2) (x : thresholds) : bbtkv2 :=
  let b := (SendCommand b "SEPV".toList).2
  let b := (SendCommand b (SprintfD x.Mic1)).2
  let b := (SendCommand b (SprintfD x.Mic2)).2
  let b := (SendCommand b (SprintfD x.Sounder1)).2
  let b := (SendCommand b (SprintfD x.Sounder2)).2
  let b := (SendCommand b (SprintfD x.Opto1)).2
  let b := (SendCommand b (SprintfD x.Opto2)).2
  let b := (SendCommand b (SprintfD x.Opto3)).2
  let b := (SendCommand b (SprintfD x.Opto4)).2
  b

/-- The loop `for response != "DONE;"` of `ClearTimingData`. -/
def ClearTimingDataPoll : Nat → Bytes → bbtkv2 → Run Unit
  | 0, _, _ => .timeout
  | fuel + 1, response, b =>
    if response ≠ "DONE;".toList then
      let b1 := if b.DEBUG then
          logPrintf b "Warning: ClearTimingData expected \"DONE;\", got \"%v\"".toList response
        else b
      match ReadLine b1 with
      | ((_, some err), b2) => .fatal (logPrintf b2 "ClearTimingData: %w".toList err)
      | ((response1, none), b2) => ClearTimingDataPoll fuel response1 b2
    else
      .returned () b

/-- Method `ClearTimingData`; the error of the send is dropped. -/
def ClearTimingData (fuel : Nat) (b : bbtkv2) : Run Unit :=
  let b1 := (SendCommand b "SPIE".toList).2
  match ReadLine b1 with
  | ((_, some err), b2) => .fatal (logPrintf b2 "ClearTimingData: %w".toList err)
  | ((response, none), b2) =>
    let b3 := if response ≠ "FRMT;".toList ∧ response ≠ "ESEC;".toList then
        logPrintf b2 "Warning: ClearTimingData expected \"FRMT;\" or \"ESEC;\", got \"%v\"".toList
          response
      else b2
    match ReadLine b3 with
    | ((_, some err), b4) => .fatal (logPrintf b4 "ClearTimingData: %w".toList err)
    | ((response1, none), b4) => ClearTimingDataPoll fuel response1 b4

/-- One call `n, err := b.port.Read(buff)`: the count, the error and the buffer
after the call. At most `len(buff)` bytes are stored, at the start of `buff`; the
bytes behind them are left as they were. -/
def portRead (b : bbtkv2) (buff : Bytes) : (Nat × Option GoError × Bytes) × bbtkv2 :=
  match b.reads b.nreads with
  | .data chunk =>
    let n := min chunk.length buff.length
    ((n, none, chunk.take n ++ buff.drop n), { b with nreads := b.nreads + 1 })
  | .fail err => ((0, some err, buff), { b with nreads := b.nreads + 1 })

/-- The read loop of `CaptureEvents`, from the loop head with the current `buff` and
`text`. -/
def CaptureEventsDrain : Nat → Bytes → Bytes → bbtkv2 → Run Bytes
  | 0, _, _, _ => .timeout
  | fuel + 1, buff, text, b =>
    match portRead b buff with
    | ((_, some err, _), b1) => .fatal (logPrintf b1 "%v".toList err)
    | ((n, none, buff1), b1) =>
      let text1 := if n > 0 then text ++ buff1.take n else text
      if stringsContains buff1 "EDAT".toList then
        .returned text1 b1
      else
        CaptureEventsDrain fuel buff1 text1 b1

/-- One arming step of `CaptureEvents`: send `cmd`, log with `format` when the send
fails, carry on. -/
def CaptureEventsSend (b : bbtkv2) (cmd : Bytes) (format : Bytes) : bbtkv2 :=
  match SendCommand b cmd with
  | (some err, b1) => logPrintf b1 format err
  | (none, b1) => b1

/-- The four sends at the start of `CaptureEvents`; `duration` is a Go `int`. -/
def CaptureEventsArm (b : bbtkv2) (duration : Int) : bbtkv2 :=
  let b := CaptureEventsSend b "DSCM".toList "CaptureEvents: DSCM %w".toList
  let b := CaptureEventsSend b "TIML".toList "CaptureEvents: TIML %w".toList
  let b := CaptureEventsSend b (SprintfD (wrapInt64 (duration * 1000000)))
    "CaptureEvents: %w".toList
  let b := CaptureEventsSend b "RUDS".toList "CaptureEvents: RUDS %w".toList
  b

/-- The buffer `make([]byte, 100)`. -/
def newBuff : Bytes := List.replicate 100 (Char.ofNat 0)

/-- Method `CaptureEvents`. -/
def CaptureEvents (fuel : Nat) (b : bbtkv2) (duration : Int) : Run Bytes :=
  CaptureEventsDrain fuel newBuff "".toList (CaptureEventsArm b duration)

/-! ## Simulated ports and the vocabulary of the properties -/

/-- Port whose writes all succeed, with `input` pending for the line reader and the
chunks `chunks` for raw reads, followed by read timeouts without end. -/
def simulated (debug : Bool) (input : Bytes) (chunks : List Bytes) : bbtkv2 :=
  { DEBUG := debug
    writeErr := fun _ => none
    writes := []
    pending := input
    readErr := "EOF".toList
    reads := fun k => .data (chunks.getD k [])
    nreads := 0
    logs := [] }

/-- Value denoted by a text of decimal digits, most significant first. -/
def decimalValue (text : Bytes) : Nat :=
  text.foldl (fun acc c => 10 * acc + (c.toNat - 48)) 0

/-- The text is the canonical decimal numeral of `v`: digits only (so no sign), not
empty, no leading zero unless the text is the single digit zero, and it denotes
`v`. -/
def IsCanonicalDecimal (text : Bytes) (v : Nat) : Prop :=
  (∀ c ∈ text, c.isDigit = true) ∧ text ≠ [] ∧
    (text = ['0'] ∨ text.head? ≠ some '0') ∧ decimalValue text = v

/-- Every channel is in the range 0..127. -/
def thresholds.InRange (x : thresholds) : Prop :=
  x.Mic1 ≤ 127 ∧ x.Mic2 ≤ 127 ∧ x.Sounder1 ≤ 127 ∧ x.Sounder2 ≤ 127 ∧
    x.Opto1 ≤ 127 ∧ x.Opto2 ≤ 127 ∧ x.Opto3 ≤ 127 ∧ x.Opto4 ≤ 127

instance (x : thresholds) : Decidable x.InRange := by
  unfold thresholds.InRange
  infer_instance

/-- The two-byte command terminator, CR LF. -/
def CRLF : Bytes := ['\r', '\n']

/-- Character sent for one flag of the smoothing mask. -/
def flagChar (flag : Bool) : Char := if flag then '1' else '0'

/-- Log entry that is a warning: its format text starts with `Warning:`. -/
def isWarning (e : LogEntry) : Bool := "Warning:".toList.isPrefixOf e.format

/-- Number of warnings logged so far. -/
def warnings (b : bbtkv2) : Nat := (b.logs.filter isWarning).length

/-- Bytes the device sends for a list of reply lines: each line followed by LF. -/
def wire (lines : List Bytes) : Bytes := (lines.map (fun l => l ++ ['\n'])).flatten

/-- Port whose every write fails with `err`. -/
def unwritable (err : GoError) (input : Bytes) (chunks : List Bytes) : bbtkv2 :=
  { simulated false input chunks with writeErr := fun _ => some err }

/-- The reply sequence FRMT;, five times DONE_WRONG;, DONE; as bytes on the line,
followed by one more line that is not part of the exchange. -/
def clearReplies : Bytes :=
  wire ["FRMT;".toList, "DONE_WRONG;".toList, "DONE_WRONG;".toList, "DONE_WRONG;".toList,
    "DONE_WRONG;".toList, "DONE_WRONG;".toList, "DONE;".toList] ++ "next\n".toList

/-- Bytes that the k-th `port.Read` into a 100-byte buffer delivers: the first n
bytes of the buffer after the call, n being the returned count; nothing for a read
that fails. -/
def received (reads : Nat → ReadOutcome) (k : Nat) : Bytes :=
  match reads k with
  | .data chunk => chunk.take (min chunk.length 100)
  | .fail _ => []

/-- Log entries of one arming step of `CaptureEvents`, given the `DEBUG` flag and
the error of the step's write: the entry of `SendCommand` under `DEBUG`, then the
entry for the failed write, if it failed. -/
def sendLog (debug : Bool) (werr : Option GoError) (cmd format : Bytes) : List LogEntry :=
  (if debug then [⟨"SendCommand: \"%v\"\n".toList, cmd⟩] else []) ++
    (match werr with
     | some err => [⟨format, err⟩]
     | none => [])

/-- Chunks of a capture whose completion marker is split between the second and the
third chunk. -/
def straddling : List Bytes :=
  ["...SDAT;\n3\n".toList, "1000\n5\nEDA".toList, "T;\n".toList]

/-- Chunks of a capture in which a one-byte read follows a longer one: the header,
then the first byte of the completion marker alone. -/
def staleChunks : List Bytes := ["SDAT;\n3\n".toList, "E".toList]

/-- Go slice expression `s[:hi]` on a string: the first `hi` bytes, and a run-time
panic (`none`) unless `0 <= hi <= len(s)`. -/
def sliceTo (s : Bytes) (hi : Int) : Option Bytes :=
  if 0 ≤ hi ∧ hi ≤ (s.length : Int) then some (s.take hi.toNat) else none

/-- State of the older copy of the driver, `src/gobbtkv2.go`: port, reader and logger
as in the newer copy (`base`), and the outcomes of the port's buffer resets, which
only the older `SendCommand` calls. `DEBUG` is a constant there, so the flag of
`base` is not read. -/
structure Gobbtkv2.bbtkv2 where
  /-- port, reader and logger -/
  base : Bbtkv2.bbtkv2
  /-- error returned by the k-th call of `port.ResetInputBuffer` -/
  resetInErr : Nat → Option GoError
  /-- error returned by the k-th call of `port.ResetOutputBuffer` -/
  resetOutErr : Nat → Option GoError
  /-- number of calls of `port.ResetInputBuffer` made so far -/
  nResetIn : Nat
  /-- number of calls of `port.ResetOutputBuffer` made so far -/
  nResetOut : Nat

/-- The constant `DEBUG` of `src/gobbtkv2.go`. -/
def Gobbtkv2.DEBUG : Bool := true

/-- Method `SendCommand` of `src/gobbtkv2.go`: resets the input buffer, then the
output buffer, and returns the error of a failed reset without writing; otherwise
logs, hands `cmd + "\r\n"` to `port.Write` and returns the error of that write. -/
def Gobbtkv2.SendCommand (g : Gobbtkv2.bbtkv2) (cmd : Bytes) :
    Option GoError × Gobbtkv2.bbtkv2 :=
  match g.resetInErr g.nResetIn with
  | some err => (some err, { g with nResetIn := g.nResetIn + 1 })
  | none =>
    match g.resetOutErr g.nResetOut with
    | some err =>
      (some err, { g with nResetIn := g.nResetIn + 1, nResetOut := g.nResetOut + 1 })
    | none =>
      let p := if Gobbtkv2.DEBUG then logPrintf g.base "SendCommand: \"%v\"\n".toList cmd
               else g.base
      (p.writeErr p.writes.length,
        { g with
          base := { p with writes := p.writes ++ [cmd ++ "\r\n".toList] }
          nResetIn := g.nResetIn + 1
          nResetOut := g.nResetOut + 1 })

/-- How far a call of the older `CaptureEvents` has got: its read loop has no exit
but `log.Fatal`, so the call either has left the process there or is still in the
loop, with the text accumulated so far. -/
inductive Gobbtkv2.Run where
  /-- the process exits in `log.Fatal` -/
  | fatal (g : Gobbtkv2.bbtkv2)
  /-- at the loop head after the iterations counted by the fuel -/
  | looping (text : Bytes) (g : Gobbtkv2.bbtkv2)

/-- State reached by a run of the older `CaptureEvents`. -/
def Gobbtkv2.Run.state : Gobbtkv2.Run → Gobbtkv2.bbtkv2
  | .fatal g => g
  | .looping _ g => g

/-- The read loop of the older `CaptureEvents`, from the loop head with the current
`buff` and `text`, for `fuel` iterations. -/
def Gobbtkv2.CaptureEventsLoop : Nat → Bytes → Bytes → Gobbtkv2.bbtkv2 → Gobbtkv2.Run
  | 0, _, text, g => .looping text g
  | fuel + 1, buff, text, g =>
    match portRead g.base buff with
    | ((_, some err, _), p1) => .fatal { g with base := logPrintf p1 "%v".toList err }
    | ((n, none, buff1), p1) =>
      let text1 := if n > 0 then text ++ buff1.take n else text
      Gobbtkv2.CaptureEventsLoop fuel buff1 text1 { g with base := p1 }

/-- Method `CaptureEvents` of `src/gobbtkv2.go`: the errors of the first three sends
are dropped, that of the last is logged; then the read loop. -/
def Gobbtkv2.CaptureEvents (fuel : Nat) (g : Gobbtkv2.bbtkv2) (duration : Int) :
    Gobbtkv2.Run :=
  let g := (Gobbtkv2.SendCommand g "DSCM".toList).2
  let g := (Gobbtkv2.SendCommand g "TIML".toList).2
  let g := (Gobbtkv2.SendCommand g (SprintfD (wrapInt64 (duration * 1000000)))).2
  match Gobbtkv2.SendCommand g "RUDS".toList with
  | (some err, g1) =>
    Gobbtkv2.CaptureEventsLoop fuel newBuff "".toList
      { g1 with base := logPrintf g1.base "CaptureEvents: %w".toList err }
  | (none, g1) => Gobbtkv2.CaptureEventsLoop fuel newBuff "".toList g1

/-- Older driver on the port `base`, with the given reset outcomes. -/
def Gobbtkv2.simulated (base : Bbtkv2.bbtkv2) (resetInErr resetOutErr : Nat → Option GoError) :
    Gobbtkv2.bbtkv2 :=
  { base := base, resetInErr := resetInErr, resetOutErr := resetOutErr,
    nResetIn := 0, nResetOut := 0 }

/-- Reset outcomes with a failure at the first call only. -/
def failsFirst (err : GoError) : Nat → Option GoError
  | 0 => some err
  | _ + 1 => none

/-- Reset outcomes without a failure. -/
def neverFails : Nat → Option GoError := fun _ => none

/-- The four arming commands of a capture of `d` seconds as handed to the port:
DSCM, TIML, the text of `d * 1000000` and RUDS, each followed by CR LF. -/
def armingCommands (d : Int) : List Bytes :=
  ["DSCM".toList ++ CRLF, "TIML".toList ++ CRLF,
    SprintfD (wrapInt64 (d * 1000000)) ++ CRLF, "RUDS".toList ++ CRLF]

/-- Entries that `SendCommand` logs for the four arming commands under `DEBUG`. -/
def armingDebugLog (d : Int) : List LogEntry :=
  [⟨"SendCommand: \"%v\"\n".toList, "DSCM".toList⟩,
    ⟨"SendCommand: \"%v\"\n".toList, "TIML".toList⟩,
    ⟨"SendCommand: \"%v\"\n".toList, SprintfD (wrapInt64 (d * 1000000))⟩,
    ⟨"SendCommand: \"%v\"\n".toList, "RUDS".toList⟩]

/-! ## Properties -/

theorem digitByte_facts (d : Nat) (h : d < 10) :
    (digitByte d).isDigit = true ∧ (digitByte d).toNat - 48 = d ∧
      (d ≠ 0 → digitByte d ≠ '0') ∧ (d = 0 → digitByte d = '0') := by
  interval_cases d <;> decide

theorem decimalValue_append_singleton (ds : Bytes) (c : Char) :
    decimalValue (ds ++ [c]) = 10 * decimalValue ds + (c.toNat - 48) := by
  simp [decimalValue, List.foldl_append]

theorem fmtIntegerLoop_spec (fuel : Nat) :
    ∀ (u : Nat) (buf : Bytes), u < 10 ^ (fuel + 1) →
      ∃ ds : Bytes, fmtIntegerLoop fuel u buf = ds ++ buf ∧ ds ≠ [] ∧
        (∀ c ∈ ds, c.isDigit = true) ∧ decimalValue ds = u ∧
        (u ≠ 0 → ds.head? ≠ some '0') ∧ (u = 0 → ds = ['0']) := by
  induction fuel with
  | zero =>
    intro u buf hu
    have hu10 : u < 10 := by simpa using hu
    obtain ⟨h1, h2, h3, h4⟩ := digitByte_facts u hu10
    refine ⟨[digitByte u], ?_, by simp, ?_, ?_, ?_, ?_⟩
    · simp [fmtIntegerLoop, Nat.mod_eq_of_lt hu10]
    · intro c hc
      simp at hc
      subst hc
      exact h1
    · simp [decimalValue, h2]
    · intro h0
      simpa using h3 h0
    · intro h0
      simp [h4 h0]
  | succ fuel ih =>
    intro u buf hu
    by_cases h10 : u ≥ 10
    · have hnext : u / 10 < 10 ^ (fuel + 1) := by
        rw [Nat.div_lt_iff_lt_mul (by norm_num)]
        calc u < 10 ^ (fuel + 1 + 1) := hu
          _ = 10 ^ (fuel + 1) * 10 := by ring
      have hd : u - u / 10 * 10 = u % 10 := by omega
      have hd10 : u % 10 < 10 := Nat.mod_lt _ (by norm_num)
      obtain ⟨h1, h2, _, _⟩ := digitByte_facts (u % 10) hd10
      obtain ⟨ds, e, hne, hdig, hval, hhead, _⟩ :=
        ih (u / 10) (digitByte (u % 10) :: buf) hnext
      refine ⟨ds ++ [digitByte (u % 10)], ?_, by simp, ?_, ?_, ?_, ?_⟩
      · simp [fmtIntegerLoop, h10, hd, e]
      · intro c hc
        rcases List.mem_append.mp hc with hc | hc
        · exact hdig c hc
        · simp at hc
          subst hc
          exact h1
      · rw [decimalValue_append_singleton, hval, h2]
        omega
      · intro _
        have hq : u / 10 ≠ 0 := by omega
        have := hhead hq
        cases ds with
        | nil => exact absurd rfl hne
        | cons a t => simpa using this
      · intro h0
        omega
    · have hu10 : u < 10 := by omega
      obtain ⟨h1, h2, h3, h4⟩ := digitByte_facts u hu10
      refine ⟨[digitByte u], ?_, by simp, ?_, ?_, ?_, ?_⟩
      · simp [fmtIntegerLoop, h10]
      · intro c hc
        simp at hc
        subst hc
        exact h1
      · simp [decimalValue, h2]
      · intro h0
        simpa using h3 h0
      · intro h0
        simp [h4 h0]

theorem SprintfD_canonical (n : Nat) (h : n < 2 ^ 64) :
    IsCanonicalDecimal (SprintfD (n : Int)) n := by
  have hlt : n < 10 ^ (20 + 1) := by
    calc n < 2 ^ 64 := h
      _ ≤ 10 ^ (20 + 1) := by norm_num
  obtain ⟨ds, e, hne, hdig, hval, hhead, hzero⟩ := fmtIntegerLoop_spec 20 n [] hlt
  have hs : SprintfD (n : Int) = ds := by
    have : ¬ ((n : Int) < 0) := by omega
    simp [SprintfD, this, e]
  rw [hs]
  refine ⟨hdig, hne, ?_, hval⟩
  by_cases h0 : n = 0
  · exact Or.inl (hzero h0)
  · exact Or.inr (hhead h0)

theorem SendCommand_writes (b : bbtkv2) (cmd : Bytes) :
    (SendCommand b cmd).2.writes = b.writes ++ [cmd ++ CRLF] := by
  unfold SendCommand logPrintf
  by_cases h : b.DEBUG <;> simp [h, CRLF]

theorem SendCommand_err (b : bbtkv2) (cmd : Bytes) :
    (SendCommand b cmd).1 = b.writeErr b.writes.length := by
  unfold SendCommand logPrintf
  by_cases h : b.DEBUG <;> simp [h]

theorem SendCommand_env (b : bbtkv2) (cmd : Bytes) :
    (SendCommand b cmd).2.DEBUG = b.DEBUG ∧ (SendCommand b cmd).2.writeErr = b.writeErr ∧
      (SendCommand b cmd).2.pending = b.pending ∧ (SendCommand b cmd).2.readErr = b.readErr ∧
      (SendCommand b cmd).2.reads = b.reads ∧ (SendCommand b cmd).2.nreads = b.nreads := by
  unfold SendCommand logPrintf
  by_cases h : b.DEBUG <;> simp [h]

theorem SendCommand_logs (b : bbtkv2) (cmd : Bytes) :
    (SendCommand b cmd).2.logs =
      b.logs ++ (if b.DEBUG then [⟨"SendCommand: \"%v\"\n".toList, cmd⟩] else []) := by
  unfold SendCommand logPrintf
  by_cases h : b.DEBUG <;> simp [h]

/-- C2: for every thresholds value whose eight channels are in 0..127, SetThresholds
hands exactly nine texts to the port, in this order: SEPV, then the texts of Mic1,
Mic2, Sounder1, Sounder2, Opto1, Opto2, Opto3, Opto4, each followed by CR LF; the
bytes sent are their concatenation, and each value text is the canonical decimal
numeral of its channel. -/
theorem C2_SetThresholds_sequence (b : bbtkv2) (x : thresholds) (hx : x.InRange) :
    (SetThresholds b x).writes = b.writes ++
        ["SEPV".toList ++ CRLF, SprintfD x.Mic1 ++ CRLF, SprintfD x.Mic2 ++ CRLF,
          SprintfD x.Sounder1 ++ CRLF, SprintfD x.Sounder2 ++ CRLF,
          SprintfD x.Opto1 ++ CRLF, SprintfD x.Opto2 ++ CRLF,
          SprintfD x.Opto3 ++ CRLF, SprintfD x.Opto4 ++ CRLF] ∧
      ((SetThresholds b x).writes.drop b.writes.length).length = 9 ∧
      ((SetThresholds b x).writes.drop b.writes.length).flatten =
        "SEPV".toList ++ CRLF ++ SprintfD x.Mic1 ++ CRLF ++ SprintfD x.Mic2 ++ CRLF ++
          SprintfD x.Sounder1 ++ CRLF ++ SprintfD x.Sounder2 ++ CRLF ++
          SprintfD x.Opto1 ++ CRLF ++ SprintfD x.Opto2 ++ CRLF ++
          SprintfD x.Opto3 ++ CRLF ++ SprintfD x.Opto4 ++ CRLF ∧
      IsCanonicalDecimal (SprintfD x.Mic1) x.Mic1 ∧
      IsCanonicalDecimal (SprintfD x.Mic2) x.Mic2 ∧
      IsCanonicalDecimal (SprintfD x.Sounder1) x.Sounder1 ∧
      IsCanonicalDecimal (SprintfD x.Sounder2) x.Sounder2 ∧
      IsCanonicalDecimal (SprintfD x.Opto1) x.Opto1 ∧
      IsCanonicalDecimal (SprintfD x.Opto2) x.Opto2 ∧
      IsCanonicalDecimal (SprintfD x.Opto3) x.Opto3 ∧
      IsCanonicalDecimal (SprintfD x.Opto4) x.Opto4 := by
  obtain ⟨h1, h2, h3, h4, h5, h6, h7, h8⟩ := hx
  have hw : (SetThresholds b x).writes = b.writes ++
        ["SEPV".toList ++ CRLF, SprintfD x.Mic1 ++ CRLF, SprintfD x.Mic2 ++ CRLF,
          SprintfD x.Sounder1 ++ CRLF, SprintfD x.Sounder2 ++ CRLF,
          SprintfD x.Opto1 ++ CRLF, SprintfD x.Opto2 ++ CRLF,
          SprintfD x.Opto3 ++ CRLF, SprintfD x.Opto4 ++ CRLF] := by
    simp only [SetThresholds, SendCommand_writes, List.append_assoc, List.singleton_append,
      List.cons_append, List.nil_append]
  have hc : ∀ n : Nat, n ≤ 127 → IsCanonicalDecimal (SprintfD n) n := fun n hn =>
    SprintfD_canonical n (by omega)
  refine ⟨hw, ?_, ?_, hc _ h1, hc _ h2, hc _ h3, hc _ h4, hc _ h5, hc _ h6, hc _ h7, hc _ h8⟩
  · rw [hw]
    simp
  · rw [hw]
    simp

theorem C2_SetThresholds_sequence_witness :
    defaultThresholds.InRange ∧
      (SetThresholds (simulated false [] []) defaultThresholds).writes =
        ["SEPV\r\n".toList, "0\r\n".toList, "0\r\n".toList, "63\r\n".toList, "63\r\n".toList,
          "110\r\n".toList, "110\r\n".toList, "110\r\n".toList, "110\r\n".toList] :=
  ⟨by decide,
    (C2_SetThresholds_sequence (simulated false [] []) defaultThresholds (by decide)).1.trans
      (by decide)⟩

/-- C3: for every smoothing mask, the mask text is the eight characters for Mic1,
Mic2, Opto4, Opto3, Opto2, Opto1 followed by two characters 1; so it has length 8,
holds only the characters 0 and 1, and ends in 11. SetSmoothing sends SMOO and then
this text as its second command whenever the first send succeeds, and distinct
masks give distinct texts. -/
theorem C3_strMask_encoding (mask : smoothingMask) :
    strMask mask = [flagChar mask.Mic1, flagChar mask.Mic2, flagChar mask.Opto4,
        flagChar mask.Opto3, flagChar mask.Opto2, flagChar mask.Opto1, '1', '1'] ∧
      (strMask mask).length = 8 ∧
      (∀ c ∈ strMask mask, c = '0' ∨ c = '1') ∧
      (strMask mask).drop 6 = ['1', '1'] ∧
      (∀ other : smoothingMask, strMask other = strMask mask → other = mask) ∧
      (∀ b : bbtkv2, b.writeErr b.writes.length = none →
        (SetSmoothing b mask).2.writes =
          b.writes ++ ["SMOO".toList ++ CRLF, strMask mask ++ CRLF]) := by
  have henc : ∀ m : smoothingMask, strMask m = [flagChar m.Mic1, flagChar m.Mic2,
      flagChar m.Opto4, flagChar m.Opto3, flagChar m.Opto2, flagChar m.Opto1, '1', '1'] := by
    rintro ⟨a, b, c, d, e, f⟩
    cases a <;> cases b <;> cases c <;> cases d <;> cases e <;> cases f <;> rfl
  have hflag : ∀ p q : Bool, flagChar p = flagChar q → p = q := by decide
  refine ⟨henc mask, by simp [henc], ?_, by simp [henc], ?_, ?_⟩
  · intro c hc
    rw [henc] at hc
    have hf : ∀ p : Bool, flagChar p = '0' ∨ flagChar p = '1' := by decide
    simp only [List.mem_cons, List.mem_singleton, List.not_mem_nil, or_false] at hc
    rcases hc with h | h | h | h | h | h | h | h <;> subst h <;>
      first | exact hf _ | exact Or.inr rfl
  · intro other h
    rw [henc, henc] at h
    simp only [List.cons.injEq, and_true] at h
    obtain ⟨h1, h2, h3, h4, h5, h6⟩ := h
    obtain ⟨a, b, c, d, e, f⟩ := other
    obtain ⟨a', b', c', d', e', f'⟩ := mask
    simp only [smoothingMask.mk.injEq]
    exact ⟨hflag _ _ h1, hflag _ _ h2, hflag _ _ h3, hflag _ _ h4, hflag _ _ h5, hflag _ _ h6⟩
  · intro b hb
    have e1 : (SendCommand b "SMOO".toList).1 = none := by rw [SendCommand_err, hb]
    unfold SetSmoothing
    rcases hsc : SendCommand b "SMOO".toList with ⟨r1, b1⟩
    rw [hsc] at e1
    simp only at e1
    subst e1
    have hw1 : b1.writes = b.writes ++ ["SMOO".toList ++ CRLF] := by
      have := SendCommand_writes b "SMOO".toList
      rw [hsc] at this
      exact this
    simp only
    rcases hsc2 : SendCommand b1 (strMask mask) with ⟨r2, b2⟩
    have hw2 : b2.writes = b1.writes ++ [strMask mask ++ CRLF] := by
      have := SendCommand_writes b1 (strMask mask)
      rw [hsc2] at this
      exact this
    cases r2 <;> simp [hw2, hw1]

theorem C3_strMask_encoding_witness :
    (simulated false [] []).writeErr (simulated false [] []).writes.length = none ∧
      (SetSmoothing (simulated false [] []) defaultSmoothingMask).2.writes =
        ["SMOO\r\n".toList, "11000011\r\n".toList] :=
  ⟨rfl, ((C3_strMask_encoding defaultSmoothingMask).2.2.2.2.2 (simulated false [] []) rfl).trans
    (by decide)⟩

theorem splitAtDelim_line (l rest : Bytes) (h : '\n' ∉ l) :
    splitAtDelim '\n' (l ++ '\n' :: rest) = some (l ++ ['\n'], rest) := by
  induction l with
  | nil => simp [splitAtDelim]
  | cons c cs ih =>
    have hc : c ≠ '\n' := fun e => h (by simp [e])
    have hcs : '\n' ∉ cs := fun e => h (by simp [e])
    simp [splitAtDelim, hc, ih hcs]

theorem ReadLine_line (b : bbtkv2) (l rest : Bytes) (h : '\n' ∉ l)
    (hp : b.pending = l ++ '\n' :: rest) :
    ReadLine b = ((l, none),
      { b with
        pending := rest
        logs := b.logs ++ (if b.DEBUG then [⟨"Readline: got \"%s\"\n".toList, l⟩] else []) }) := by
  unfold ReadLine ReadString
  rw [hp, splitAtDelim_line l rest h]
  by_cases hd : b.DEBUG <;> simp [hd, logPrintf]

theorem ReadLine_env (b : bbtkv2) :
    (ReadLine b).2.DEBUG = b.DEBUG ∧ (ReadLine b).2.writeErr = b.writeErr ∧
      (ReadLine b).2.writes = b.writes ∧ (ReadLine b).2.readErr = b.readErr ∧
      (ReadLine b).2.reads = b.reads ∧ (ReadLine b).2.nreads = b.nreads := by
  unfold ReadLine ReadString
  cases splitAtDelim '\n' b.pending with
  | none => simp
  | some p =>
    by_cases hd : b.DEBUG <;> simp [hd, logPrintf]

theorem Connect_of_reply (b b2 : bbtkv2) (r : Bytes)
    (h : ReadLine (SendCommand b "CONN".toList).2 = ((r, none), b2)) :
    Connect b =
      if r ≠ "BBTK;".toList then
        (some ("Connect: expected \"BBTK;\", got \"".toList ++ r ++ "\"".toList), b2)
      else (none, b2) := by
  simp only [Connect, h]

/-- C4: Connect sends CONN; for every reply line that ReadLine then returns without
error, Connect returns nil exactly when the line is `BBTK;`, and otherwise returns
the error `Connect: expected "BBTK;", got "r"`, whose text contains the line. -/
theorem C4_Connect_reply (b : bbtkv2) (r : Bytes)
    (h : (ReadLine (SendCommand b "CONN".toList).2).1 = (r, none)) :
    (Connect b).2.writes = b.writes ++ ["CONN".toList ++ CRLF] ∧
      ((Connect b).1 = none ↔ r = "BBTK;".toList) ∧
      (r ≠ "BBTK;".toList →
        (Connect b).1 =
            some ("Connect: expected \"BBTK;\", got \"".toList ++ r ++ "\"".toList) ∧
          ∀ msg, (Connect b).1 = some msg → r <:+: msg) := by
  have hw : (ReadLine (SendCommand b "CONN".toList).2).2.writes =
      b.writes ++ ["CONN".toList ++ CRLF] := by
    rw [(ReadLine_env _).2.2.1, SendCommand_writes]
  have hc := Connect_of_reply b (ReadLine (SendCommand b "CONN".toList).2).2 r
    (Prod.ext h rfl)
  by_cases hb : r = "BBTK;".toList
  · rw [if_neg (not_not.mpr hb)] at hc
    rw [hc]
    exact ⟨hw, ⟨fun _ => hb, fun _ => rfl⟩, fun hne => absurd hb hne⟩
  · rw [if_pos hb] at hc
    rw [hc]
    refine ⟨hw, ⟨fun hn => ?_, fun he => absurd he hb⟩, fun _ => ⟨rfl, ?_⟩⟩
    · exact absurd hn (by simp)
    · intro msg hm
      have hm2 : "Connect: expected \"BBTK;\", got \"".toList ++ r ++ "\"".toList = msg :=
        Option.some.inj hm
      rw [← hm2]
      exact ⟨"Connect: expected \"BBTK;\", got \"".toList, "\"".toList, rfl⟩

theorem C4_Connect_reply_witness :
    (ReadLine (SendCommand (simulated false "BBT;\n".toList []) "CONN".toList).2).1 =
        ("BBT;".toList, none) ∧
      (Connect (simulated false "BBT;\n".toList [])).1 =
        some "Connect: expected \"BBTK;\", got \"BBT;\"".toList :=
  ⟨by decide,
    (((C4_Connect_reply (simulated false "BBT;\n".toList []) "BBT;".toList (by decide)).2.2
      (by decide)).1).trans (by decide)⟩

theorem IsAlive_of_send_fail (b b1 : bbtkv2) (err : GoError)
    (h : SendCommand b "ECHO".toList = (some err, b1)) :
    IsAlive b = ((false, some ("IsAlive: ".toList ++ err)), b1) := by
  simp only [IsAlive, h]

theorem IsAlive_of_read_fail (b b1 b2 : bbtkv2) (s : Bytes) (err : GoError)
    (h : SendCommand b "ECHO".toList = (none, b1))
    (hr : ReadLine b1 = ((s, some err), b2)) :
    IsAlive b = ((false, some ("IsAlive: ".toList ++ err)), b2) := by
  simp only [IsAlive, h, hr]

theorem IsAlive_of_reply (b b1 b2 : bbtkv2) (r : Bytes)
    (h : SendCommand b "ECHO".toList = (none, b1))
    (hr : ReadLine b1 = ((r, none), b2)) :
    IsAlive b =
      if r ≠ "ECHO".toList then
        ((true, some ("IsAlive: Expected \"ECHO\", Got \"".toList ++ r ++ "\"".toList)), b2)
      else ((true, none), b2) := by
  simp only [IsAlive, h, hr]

/-- C9 as stated fails: with the reply `NOPE` read without error and different from
`ECHO`, IsAlive returns true; and when the send fails, so that no reply is read at
all, IsAlive returns false. -/
theorem C9_IsAlive_counterexample :
    ¬ ((IsAlive (simulated false "NOPE\n".toList [])).1.1 = false ↔
        ∃ r, (SendCommand (simulated false "NOPE\n".toList []) "ECHO".toList).1 = none ∧
          (ReadLine (SendCommand (simulated false "NOPE\n".toList []) "ECHO".toList).2).1 =
            (r, none) ∧ r ≠ "ECHO".toList) ∧
      (IsAlive (unwritable "EIO".toList "ECHO\n".toList [])).1.1 = false ∧
      (SendCommand (unwritable "EIO".toList "ECHO\n".toList []) "ECHO".toList).1 =
        some "EIO".toList := by
  refine ⟨?_, by decide, by decide⟩
  intro h
  have ht : (IsAlive (simulated false "NOPE\n".toList [])).1.1 = true := by decide
  have hf := h.mpr ⟨"NOPE".toList, by decide, by decide, by decide⟩
  rw [ht] at hf
  exact Bool.noConfusion hf

/-- C9, amended: IsAlive returns false exactly when the exchange met a transport
error, that is when the send of ECHO failed or the read of the reply line failed.
When a reply line was read, the flag is true whatever the line is, and the returned
error is nil exactly when the line is `ECHO`. -/
theorem C9_IsAlive_flag (b : bbtkv2) :
    ((IsAlive b).1.1 = false ↔
        ((SendCommand b "ECHO".toList).1 ≠ none ∨
          (ReadLine (SendCommand b "ECHO".toList).2).1.2 ≠ none)) ∧
      (∀ r, (SendCommand b "ECHO".toList).1 = none →
        (ReadLine (SendCommand b "ECHO".toList).2).1 = (r, none) →
          (IsAlive b).1.1 = true ∧ ((IsAlive b).1.2 = none ↔ r = "ECHO".toList)) := by
  rcases hs : SendCommand b "ECHO".toList with ⟨e, b1⟩
  cases e with
  | some err =>
    rw [IsAlive_of_send_fail b b1 err hs]
    refine ⟨⟨fun _ => Or.inl (by simp), fun _ => rfl⟩, fun r h => ?_⟩
    simp at h
  | none =>
    rcases hr : ReadLine b1 with ⟨⟨s, e2⟩, b2⟩
    cases e2 with
    | some err =>
      rw [IsAlive_of_read_fail b b1 b2 s err hs hr]
      refine ⟨⟨fun _ => Or.inr (by simp), fun _ => rfl⟩, fun r _ h => ?_⟩
      simp at h
    | none =>
      rw [IsAlive_of_reply b b1 b2 s hs hr]
      by_cases he : s = "ECHO".toList
      · rw [if_neg (not_not.mpr he)]
        refine ⟨⟨fun h => Bool.noConfusion h, fun h => ?_⟩, fun r _ h => ?_⟩
        · rcases h with h | h <;> exact absurd rfl h
        · have : s = r := (Prod.mk.inj h).1
          exact ⟨rfl, fun _ => this ▸ he, fun _ => rfl⟩
      · rw [if_pos he]
        refine ⟨⟨fun h => Bool.noConfusion h, fun h => ?_⟩, fun r _ h => ?_⟩
        · rcases h with h | h <;> exact absurd rfl h
        · have : s = r := (Prod.mk.inj h).1
          refine ⟨rfl, fun h2 => ?_, fun h2 => absurd (this ▸ h2) he⟩
          exact absurd h2 (by simp)

theorem C9_IsAlive_flag_witness :
    (SendCommand (simulated false "NOPE\n".toList []) "ECHO".toList).1 = none ∧
      (ReadLine (SendCommand (simulated false "NOPE\n".toList []) "ECHO".toList).2).1 =
        ("NOPE".toList, none) ∧
      (IsAlive (simulated false "NOPE\n".toList [])).1.1 = true :=
  ⟨by decide, by decide,
    ((C9_IsAlive_flag (simulated false "NOPE\n".toList [])).2 "NOPE".toList
      (by decide) (by decide)).1⟩

theorem warnings_append (b2 b : bbtkv2) (es : List LogEntry) (h : b2.logs = b.logs ++ es) :
    warnings b2 = warnings b + (es.filter isWarning).length := by
  simp [warnings, h, List.filter_append]

theorem ClearTimingDataPoll_done (fuel : Nat) (b : bbtkv2) :
    ClearTimingDataPoll (fuel + 1) "DONE;".toList b = .returned () b := by
  simp [ClearTimingDataPoll]

theorem ClearTimingDataPoll_step (fuel : Nat) (b : bbtkv2) (resp l rest : Bytes)
    (hresp : resp ≠ "DONE;".toList) (hl : '\n' ∉ l) (hp : b.pending = l ++ '\n' :: rest) :
    ∃ b2, ClearTimingDataPoll (fuel + 1) resp b = ClearTimingDataPoll fuel l b2 ∧
      b2.pending = rest ∧ b2.writes = b.writes ∧ b2.DEBUG = b.DEBUG ∧
      warnings b2 = warnings b + (if b.DEBUG then 1 else 0) := by
  have hp1 : (if b.DEBUG then
      logPrintf b "Warning: ClearTimingData expected \"DONE;\", got \"%v\"".toList resp
      else b).pending = l ++ '\n' :: rest := by
    by_cases hd : b.DEBUG <;> simp [hd, logPrintf, hp]
  have hR := ReadLine_line _ l rest hl hp1
  refine ⟨(ReadLine (if b.DEBUG then
      logPrintf b "Warning: ClearTimingData expected \"DONE;\", got \"%v\"".toList resp
      else b)).2, ?_, ?_⟩
  · rw [ClearTimingDataPoll, if_pos hresp]
    simp only [hR]
  · by_cases hd : b.DEBUG
    · rw [hR, if_pos hd]
      refine ⟨rfl, rfl, rfl, ?_⟩
      have hlogs : (if (logPrintf b
          "Warning: ClearTimingData expected \"DONE;\", got \"%v\"".toList resp).DEBUG = true
          then [(⟨"Readline: got \"%s\"\n".toList, l⟩ : LogEntry)] else []) =
          [⟨"Readline: got \"%s\"\n".toList, l⟩] := if_pos hd
      simp only [hlogs]
      rw [warnings_append _ b [⟨"Warning: ClearTimingData expected \"DONE;\", got \"%v\"".toList,
        resp⟩, ⟨"Readline: got \"%s\"\n".toList, l⟩] (by simp [logPrintf]), if_pos hd]
      rfl
    · rw [hR, if_neg hd]
      refine ⟨rfl, rfl, rfl, ?_⟩
      rw [if_neg hd, if_neg hd]
      rw [warnings_append _ b [] (by simp)]
      rfl

theorem ClearTimingDataPoll_spec (ls : List Bytes) :
    ∀ (fuel : Nat) (b : bbtkv2) (resp rest : Bytes),
      resp ≠ "DONE;".toList → (∀ l ∈ ls, '\n' ∉ l ∧ l ≠ "DONE;".toList) →
      b.pending = wire ls ++ "DONE;\n".toList ++ rest → ls.length + 1 < fuel →
      ∃ b2, ClearTimingDataPoll fuel resp b = .returned () b2 ∧
        b2.pending = rest ∧ b2.writes = b.writes ∧ b2.DEBUG = b.DEBUG ∧
        warnings b2 = warnings b + (if b.DEBUG then ls.length + 1 else 0) := by
  induction ls with
  | nil =>
    intro fuel b resp rest hresp _ hp hfuel
    obtain ⟨f, rfl⟩ : ∃ f, fuel = f + 2 := ⟨fuel - 2, by simp at hfuel; omega⟩
    have hp2 : b.pending = "DONE;".toList ++ '\n' :: rest := by
      rw [hp]
      simp [wire]
    obtain ⟨b2, e, h1, h2, h3, h4⟩ :=
      ClearTimingDataPoll_step (f + 1) b resp "DONE;".toList rest hresp (by decide) hp2
    exact ⟨b2, by rw [e, ClearTimingDataPoll_done], h1, h2, h3, by simpa using h4⟩
  | cons l ls ih =>
    intro fuel b resp rest hresp hls hp hfuel
    obtain ⟨f, rfl⟩ : ∃ f, fuel = f + 1 := ⟨fuel - 1, by omega⟩
    have hl := hls l (by simp)
    have hp2 : b.pending = l ++ '\n' :: (wire ls ++ "DONE;\n".toList ++ rest) := by
      rw [hp]
      simp [wire]
    obtain ⟨b2, e, h1, h2, h3, h4⟩ :=
      ClearTimingDataPoll_step f b resp l _ hresp hl.1 hp2
    obtain ⟨b3, e3, g1, g2, g3, g4⟩ := ih f b2 l rest hl.2
      (fun x hx => hls x (by simp [hx])) h1 (by simp at hfuel; omega)
    refine ⟨b3, by rw [e, e3], g1, by rw [g2, h2], by rw [g3, h3], ?_⟩
    rw [g4, h4, h3]
    by_cases hd : b.DEBUG <;> simp [hd]
    omega

theorem ReadLine_line_ex (b : bbtkv2) (l rest : Bytes) (h : '\n' ∉ l)
    (hp : b.pending = l ++ '\n' :: rest) :
    ∃ b2, ReadLine b = ((l, none), b2) ∧ b2.pending = rest ∧ b2.writes = b.writes ∧
      b2.DEBUG = b.DEBUG ∧ warnings b2 = warnings b := by
  refine ⟨_, ReadLine_line b l rest h hp, rfl, rfl, rfl, ?_⟩
  by_cases hd : b.DEBUG
  · rw [warnings_append _ b [⟨"Readline: got \"%s\"\n".toList, l⟩] (by simp [hd])]
    rfl
  · rw [warnings_append _ b [] (by simp [hd])]
    rfl

theorem SendCommand_warnings (b : bbtkv2) (cmd : Bytes) :
    warnings (SendCommand b cmd).2 = warnings b := by
  by_cases hd : b.DEBUG
  · rw [warnings_append _ b [⟨"SendCommand: \"%v\"\n".toList, cmd⟩]
      (by rw [SendCommand_logs, if_pos hd])]
    rfl
  · rw [warnings_append _ b [] (by rw [SendCommand_logs, if_neg hd])]
    rfl

theorem ClearTimingData_of_replies (fuel : Nat) (b b2 b4 : bbtkv2) (first r1 : Bytes)
    (hfirst : first = "FRMT;".toList ∨ first = "ESEC;".toList)
    (h1 : ReadLine (SendCommand b "SPIE".toList).2 = ((first, none), b2))
    (h2 : ReadLine b2 = ((r1, none), b4)) :
    ClearTimingData fuel b = ClearTimingDataPoll fuel r1 b4 := by
  have hn : ¬ (first ≠ "FRMT;".toList ∧ first ≠ "ESEC;".toList) := by
    rintro ⟨ha, hb⟩
    rcases hfirst with h | h
    · exact ha h
    · exact hb h
  simp only [ClearTimingData, h1, if_neg hn, h2]

/-- C10 as stated fails on the count of warnings: for the replies FRMT;, five times
DONE_WRONG;, DONE; the run sends SPIE, reads the seven lines and returns, but it
logs five warnings when DEBUG is set and none when it is not; never four. -/
theorem C10_ClearTimingData_counterexample :
    (ClearTimingData 6 (simulated true clearReplies [])).state?.map warnings = some 5 ∧
      (ClearTimingData 6 (simulated false clearReplies [])).state?.map warnings = some 0 ∧
      (ClearTimingData 6 (simulated true clearReplies [])).state?.map warnings ≠ some 4 ∧
      (ClearTimingData 6 (simulated false clearReplies [])).state?.map warnings ≠ some 4 ∧
      (ClearTimingData 6 (simulated true clearReplies [])).val? = some () ∧
      (ClearTimingData 6 (simulated true clearReplies [])).state?.map (fun b => b.pending) =
        some "next\n".toList ∧
      (ClearTimingData 6 (simulated true clearReplies [])).state?.map (fun b => b.writes) =
        some ["SPIE\r\n".toList] := by
  refine ⟨by decide, by decide, by decide, by decide, by decide, by decide, by decide⟩

/-- C10, amended: after SPIE, when the first reply line is FRMT; or ESEC; and is
followed by any finite list of lines none of which is DONE; and then by the line
DONE;, ClearTimingData returns without error (given fuel for one poll per line),
having sent only SPIE and having read precisely up to that first DONE; line. It
logs one warning per line that is not DONE; when DEBUG is set and no warning when
it is not: five or none for the seven-line exchange, not four. -/
theorem C10_ClearTimingData_polls (b : bbtkv2) (first : Bytes) (lines : List Bytes)
    (rest : Bytes) (fuel : Nat)
    (hfirst : first = "FRMT;".toList ∨ first = "ESEC;".toList)
    (hlines : ∀ l ∈ lines, '\n' ∉ l ∧ l ≠ "DONE;".toList)
    (hp : b.pending = wire (first :: lines) ++ "DONE;\n".toList ++ rest)
    (hfuel : lines.length < fuel) :
    ∃ b2, ClearTimingData fuel b = .returned () b2 ∧ b2.pending = rest ∧
      b2.writes = b.writes ++ ["SPIE".toList ++ CRLF] ∧
      warnings b2 = warnings b + (if b.DEBUG then lines.length else 0) := by
  have hf : '\n' ∉ first := by
    rcases hfirst with h | h <;> rw [h] <;> decide
  obtain ⟨hD, _, hP, _, _, _⟩ := SendCommand_env b "SPIE".toList
  have hW := SendCommand_writes b "SPIE".toList
  have hN := SendCommand_warnings b "SPIE".toList
  have hp1 : (SendCommand b "SPIE".toList).2.pending =
      first ++ '\n' :: (wire lines ++ "DONE;\n".toList ++ rest) := by
    rw [hP, hp]
    simp [wire]
  obtain ⟨b2, e2, p2, w2, d2, n2⟩ := ReadLine_line_ex _ first _ hf hp1
  cases lines with
  | nil =>
    have hp2 : b2.pending = "DONE;".toList ++ '\n' :: rest := by
      rw [p2]
      simp [wire]
    obtain ⟨b4, e4, p4, w4, d4, n4⟩ := ReadLine_line_ex b2 "DONE;".toList rest (by decide) hp2
    obtain ⟨f, rfl⟩ : ∃ f, fuel = f + 1 := ⟨fuel - 1, by simp at hfuel; omega⟩
    refine ⟨b4, ?_, p4, by rw [w4, w2, hW], ?_⟩
    · rw [ClearTimingData_of_replies _ b b2 b4 first _ hfirst e2 e4, ClearTimingDataPoll_done]
    · rw [n4, n2, hN]
      simp
  | cons l ls =>
    have hl := hlines l (by simp)
    have hp2 : b2.pending = l ++ '\n' :: (wire ls ++ "DONE;\n".toList ++ rest) := by
      rw [p2]
      simp [wire]
    obtain ⟨b4, e4, p4, w4, d4, n4⟩ := ReadLine_line_ex b2 l _ hl.1 hp2
    obtain ⟨b5, e5, p5, w5, d5, n5⟩ := ClearTimingDataPoll_spec ls fuel b4 l rest hl.2
      (fun x hx => hlines x (by simp [hx])) p4 (by simp at hfuel; omega)
    refine ⟨b5, ?_, p5, by rw [w5, w4, w2, hW], ?_⟩
    · rw [ClearTimingData_of_replies _ b b2 b4 first _ hfirst e2 e4, e5]
    · rw [n5, n4, n2, hN, d4, d2, hD]
      simp

theorem C10_ClearTimingData_polls_witness :
    ∃ b2, ClearTimingData 6 (simulated true clearReplies []) = .returned () b2 ∧
      b2.pending = "next\n".toList ∧
      b2.writes = (simulated true clearReplies []).writes ++ ["SPIE".toList ++ CRLF] ∧
      warnings b2 = warnings (simulated true clearReplies []) +
        (if (simulated true clearReplies []).DEBUG then
          ["DONE_WRONG;".toList, "DONE_WRONG;".toList, "DONE_WRONG;".toList,
            "DONE_WRONG;".toList, "DONE_WRONG;".toList].length else 0) :=
  C10_ClearTimingData_polls (simulated true clearReplies []) "FRMT;".toList
    ["DONE_WRONG;".toList, "DONE_WRONG;".toList, "DONE_WRONG;".toList,
      "DONE_WRONG;".toList, "DONE_WRONG;".toList] "next\n".toList 6
    (Or.inl rfl) (by decide) (by decide) (by decide)

theorem portRead_data (b : bbtkv2) (buff chunk : Bytes) (h : b.reads b.nreads = .data chunk) :
    portRead b buff =
      ((min chunk.length buff.length, none,
          chunk.take (min chunk.length buff.length) ++ buff.drop (min chunk.length buff.length)),
        { b with nreads := b.nreads + 1 }) := by
  simp only [portRead, h]

theorem portRead_fail (b : bbtkv2) (buff : Bytes) (err : GoError)
    (h : b.reads b.nreads = .fail err) :
    portRead b buff = ((0, some err, buff), { b with nreads := b.nreads + 1 }) := by
  simp only [portRead, h]

theorem portRead_received (b : bbtkv2) (buff : Bytes) (h : buff.length = 100) :
    (portRead b buff).1.2.2.take (portRead b buff).1.1 = received b.reads b.nreads ∧
      (portRead b buff).1.2.2.length = 100 := by
  cases hr : b.reads b.nreads with
  | data chunk =>
    rw [portRead_data b buff chunk hr]
    simp only [received, hr, h]
    constructor
    · rw [List.take_append_of_le_length (by simp)]
      simp
    · simp only [List.length_append, List.length_take, List.length_drop, h]
      omega
  | fail err =>
    rw [portRead_fail b buff err hr]
    simp [received, hr, h]

theorem CaptureEventsDrain_data (fuel : Nat) (b : bbtkv2) (buff text chunk : Bytes)
    (h : b.reads b.nreads = .data chunk) :
    CaptureEventsDrain (fuel + 1) buff text b =
      if stringsContains
          (chunk.take (min chunk.length buff.length) ++ buff.drop (min chunk.length buff.length))
          "EDAT".toList then
        .returned
          (if min chunk.length buff.length > 0 then
            text ++ (chunk.take (min chunk.length buff.length) ++
              buff.drop (min chunk.length buff.length)).take (min chunk.length buff.length)
           else text)
          { b with nreads := b.nreads + 1 }
      else
        CaptureEventsDrain fuel
          (chunk.take (min chunk.length buff.length) ++ buff.drop (min chunk.length buff.length))
          (if min chunk.length buff.length > 0 then
            text ++ (chunk.take (min chunk.length buff.length) ++
              buff.drop (min chunk.length buff.length)).take (min chunk.length buff.length)
           else text)
          { b with nreads := b.nreads + 1 } := by
  rw [CaptureEventsDrain]
  simp only [portRead_data b buff chunk h]

theorem CaptureEventsDrain_fail (fuel : Nat) (b : bbtkv2) (buff text : Bytes) (err : GoError)
    (h : b.reads b.nreads = .fail err) :
    CaptureEventsDrain (fuel + 1) buff text b =
      .fatal (logPrintf { b with nreads := b.nreads + 1 } "%v".toList err) := by
  rw [CaptureEventsDrain]
  simp only [portRead_fail b buff err h]

theorem text_step (text chunk buff : Bytes) (h : buff.length = 100) :
    (if min chunk.length buff.length > 0 then
        text ++ (chunk.take (min chunk.length buff.length) ++
          buff.drop (min chunk.length buff.length)).take (min chunk.length buff.length)
      else text) = text ++ chunk.take (min chunk.length 100) := by
  rw [h, List.take_append_of_le_length (by simp)]
  by_cases hc : min chunk.length 100 > 0
  · rw [if_pos hc]
    simp
  · rw [if_neg hc]
    have : min chunk.length 100 = 0 := by omega
    simp [this]

theorem buff_step (chunk buff : Bytes) (h : buff.length = 100) :
    (chunk.take (min chunk.length buff.length) ++
      buff.drop (min chunk.length buff.length)).length = 100 := by
  simp only [List.length_append, List.length_take, List.length_drop, h]
  omega

theorem CaptureEventsDrain_returned (fuel : Nat) :
    ∀ (buff text : Bytes) (b : bbtkv2) (t : Bytes) (b2 : bbtkv2), buff.length = 100 →
      CaptureEventsDrain fuel buff text b = .returned t b2 →
      ∃ n, b2.nreads = b.nreads + (n + 1) ∧
        t = text ++ ((List.range' b.nreads (n + 1)).map (received b.reads)).flatten ∧
        (∀ k, b.nreads ≤ k → k < b2.nreads → ∃ chunk, b.reads k = .data chunk) ∧
        b2.reads = b.reads ∧ b2.writes = b.writes := by
  induction fuel with
  | zero =>
    intro buff text b t b2 _ h
    simp [CaptureEventsDrain] at h
  | succ fuel ih =>
    intro buff text b t b2 hlen h
    cases hr : b.reads b.nreads with
    | fail err =>
      rw [CaptureEventsDrain_fail fuel b buff text err hr] at h
      exact Run.noConfusion h
    | data chunk =>
      rw [CaptureEventsDrain_data fuel b buff text chunk hr, text_step text chunk buff hlen] at h
      have hrec : received b.reads b.nreads = chunk.take (min chunk.length 100) := by
        simp only [received, hr]
      split at h
      · injection h with h1 h2
        subst h1 h2
        refine ⟨0, rfl, ?_, ?_, rfl, rfl⟩
        · simp [hrec]
        · intro k hk1 hk2
          have : k = b.nreads := by
            simp only at hk2
            omega
          exact ⟨chunk, this ▸ hr⟩
      · obtain ⟨n, h1, h2, h3, h4, h5⟩ := ih _ _ _ t b2 (buff_step chunk buff hlen) h
        simp only at h1 h2 h3 h4 h5
        refine ⟨n + 1, by omega, ?_, ?_, h4, h5⟩
        · rw [h2, List.range'_succ b.nreads (n + 1)]
          simp [hrec]
        · intro k hk1 hk2
          by_cases hk : k = b.nreads
          · exact ⟨chunk, hk ▸ hr⟩
          · exact h3 k (by omega) hk2

theorem CaptureEventsDrain_congr (fuel : Nat) :
    ∀ (buff text : Bytes) (b c : bbtkv2), b.reads = c.reads → b.nreads = c.nreads →
      (CaptureEventsDrain fuel buff text b).val? = (CaptureEventsDrain fuel buff text c).val? ∧
      ((CaptureEventsDrain fuel buff text b).state?.map (fun s => s.nreads)) =
        ((CaptureEventsDrain fuel buff text c).state?.map (fun s => s.nreads)) := by
  induction fuel with
  | zero =>
    intro buff text b c _ _
    simp [CaptureEventsDrain]
  | succ fuel ih =>
    intro buff text b c h1 h2
    cases hr : b.reads b.nreads with
    | fail err =>
      have hr2 : c.reads c.nreads = .fail err := by rw [← h1, ← h2, hr]
      rw [CaptureEventsDrain_fail fuel b buff text err hr,
        CaptureEventsDrain_fail fuel c buff text err hr2]
      simp [Run.val?, Run.state?, logPrintf, h2]
    | data chunk =>
      have hr2 : c.reads c.nreads = .data chunk := by rw [← h1, ← h2, hr]
      rw [CaptureEventsDrain_data fuel b buff text chunk hr,
        CaptureEventsDrain_data fuel c buff text chunk hr2]
      split
      · simp [Run.val?, Run.state?, h2]
      · exact ih _ _ _ _ h1 (by simp [h2])

theorem CaptureEventsDrain_stuck (fuel : Nat) :
    ∀ (buff text : Bytes) (b : bbtkv2), stringsContains buff "EDAT".toList = false →
      (∀ k, b.nreads ≤ k → b.reads k = .data []) →
      CaptureEventsDrain fuel buff text b = .timeout := by
  induction fuel with
  | zero =>
    intro buff text b _ _
    rfl
  | succ fuel ih =>
    intro buff text b hbuff hreads
    rw [CaptureEventsDrain_data fuel b buff text [] (hreads _ (le_refl _))]
    have hb : ([] : Bytes).take (min ([] : Bytes).length buff.length) ++
        buff.drop (min ([] : Bytes).length buff.length) = buff := by simp
    rw [hb, if_neg (by rw [hbuff]; exact Bool.false_ne_true)]
    exact ih _ _ _ hbuff (fun k hk => hreads k (by simp only at hk; omega))

theorem CaptureEventsSend_spec (b : bbtkv2) (cmd format : Bytes) :
    (CaptureEventsSend b cmd format).writes = b.writes ++ [cmd ++ CRLF] ∧
      (CaptureEventsSend b cmd format).logs =
        b.logs ++ sendLog b.DEBUG (b.writeErr b.writes.length) cmd format ∧
      (CaptureEventsSend b cmd format).DEBUG = b.DEBUG ∧
      (CaptureEventsSend b cmd format).writeErr = b.writeErr ∧
      (CaptureEventsSend b cmd format).reads = b.reads ∧
      (CaptureEventsSend b cmd format).nreads = b.nreads := by
  have hw := SendCommand_writes b cmd
  have he := SendCommand_err b cmd
  have hl := SendCommand_logs b cmd
  obtain ⟨h1, h2, _, _, h5, h6⟩ := SendCommand_env b cmd
  unfold CaptureEventsSend
  rcases hs : SendCommand b cmd with ⟨e, b1⟩
  rw [hs] at hw he hl h1 h2 h5 h6
  simp only at hw he hl h1 h2 h5 h6
  cases e with
  | none =>
    refine ⟨hw, ?_, h1, h2, h5, h6⟩
    simp only [hl, sendLog, ← he, List.append_nil]
  | some err =>
    refine ⟨hw, ?_, h1, h2, h5, h6⟩
    simp only [logPrintf, hl, sendLog, ← he, List.append_assoc]

theorem CaptureEventsArm_spec (b : bbtkv2) (d : Int) :
    (CaptureEventsArm b d).writes = b.writes ++
        ["DSCM".toList ++ CRLF, "TIML".toList ++ CRLF,
          SprintfD (wrapInt64 (d * 1000000)) ++ CRLF, "RUDS".toList ++ CRLF] ∧
      (CaptureEventsArm b d).logs = b.logs ++
        (sendLog b.DEBUG (b.writeErr b.writes.length) "DSCM".toList
            "CaptureEvents: DSCM %w".toList ++
          sendLog b.DEBUG (b.writeErr (b.writes.length + 1)) "TIML".toList
            "CaptureEvents: TIML %w".toList ++
          sendLog b.DEBUG (b.writeErr (b.writes.length + 2))
            (SprintfD (wrapInt64 (d * 1000000))) "CaptureEvents: %w".toList ++
          sendLog b.DEBUG (b.writeErr (b.writes.length + 3)) "RUDS".toList
            "CaptureEvents: RUDS %w".toList) ∧
      (CaptureEventsArm b d).reads = b.reads ∧
      (CaptureEventsArm b d).nreads = b.nreads := by
  unfold CaptureEventsArm
  obtain ⟨w1, l1, d1, e1, r1, n1⟩ := CaptureEventsSend_spec b "DSCM".toList
    "CaptureEvents: DSCM %w".toList
  obtain ⟨w2, l2, d2, e2, r2, n2⟩ := CaptureEventsSend_spec
    (CaptureEventsSend b "DSCM".toList "CaptureEvents: DSCM %w".toList) "TIML".toList
    "CaptureEvents: TIML %w".toList
  obtain ⟨w3, l3, d3, e3, r3, n3⟩ := CaptureEventsSend_spec
    (CaptureEventsSend (CaptureEventsSend b "DSCM".toList "CaptureEvents: DSCM %w".toList)
      "TIML".toList "CaptureEvents: TIML %w".toList)
    (SprintfD (wrapInt64 (d * 1000000))) "CaptureEvents: %w".toList
  obtain ⟨w4, l4, d4, e4, r4, n4⟩ := CaptureEventsSend_spec
    (CaptureEventsSend (CaptureEventsSend (CaptureEventsSend b "DSCM".toList
      "CaptureEvents: DSCM %w".toList) "TIML".toList "CaptureEvents: TIML %w".toList)
      (SprintfD (wrapInt64 (d * 1000000))) "CaptureEvents: %w".toList)
    "RUDS".toList "CaptureEvents: RUDS %w".toList
  refine ⟨?_, ?_, ?_, ?_⟩
  · simp only [w4, w3, w2, w1, List.append_assoc, List.singleton_append, List.cons_append,
      List.nil_append]
  · simp only [l4, l3, l2, l1, d3, d2, d1, e3, e2, e1, w3, w2, w1, List.append_assoc,
      List.length_append, List.length_singleton, List.length_cons, List.length_nil]
  · simp only [r4, r3, r2, r1]
  · simp only [n4, n3, n2, n1]

theorem wrapInt64_of_fits (x : Int) (h0 : 0 ≤ x) (h1 : x < 2 ^ 63) : wrapInt64 x = x := by
  unfold wrapInt64
  rw [Int.emod_eq_of_lt (by omega) (by omega)]
  omega

theorem straddling_stuck (b : bbtkv2) (hr : ∀ k, b.reads k = .data (straddling.getD k []))
    (hn : b.nreads = 0) (fuel : Nat) :
    CaptureEventsDrain fuel newBuff [] b = .timeout := by
  cases fuel with
  | zero => rfl
  | succ f1 =>
    rw [CaptureEventsDrain_data f1 b _ _ "...SDAT;\n3\n".toList (by rw [hr, hn]; rfl),
      if_neg (by decide)]
    cases f1 with
    | zero => rfl
    | succ f2 =>
      rw [CaptureEventsDrain_data f2 _ _ _ "1000\n5\nEDA".toList
        (by show b.reads (b.nreads + 1) = _; rw [hr, hn]; rfl), if_neg (by decide)]
      cases f2 with
      | zero => rfl
      | succ f3 =>
        rw [CaptureEventsDrain_data f3 _ _ _ "T;\n".toList
          (by show b.reads (b.nreads + 1 + 1) = _; rw [hr, hn]; rfl), if_neg (by decide)]
        refine CaptureEventsDrain_stuck f3 _ _ _ (by decide) ?_
        intro k hk
        have hk3 : 3 ≤ k := by
          have : b.nreads + 1 + 1 + 1 ≤ k := hk
          omega
        show b.reads k = _
        rw [hr, List.getD_eq_default _ _ (by simpa [straddling] using hk3)]

/-- C1 on the code: the chunks `...SDAT;\n3\n`, `1000\n5\nEDA`, `T;\n`, followed by
read timeouts, hold the marker EDAT in their concatenation and in no single chunk;
each has at most 100 bytes and no read fails. The drain loop of CaptureEvents tests
the read buffer and not the accumulated text, and never stops on them: whatever the
number of iterations allowed, the run has not returned. -/
theorem C1_straddling_marker_never_seen :
    stringsContains straddling.flatten "EDAT".toList = true ∧
      (∀ c ∈ straddling, stringsContains c "EDAT".toList = false ∧ c.length ≤ 100) ∧
      ∀ (fuel : Nat) (duration : Int),
        CaptureEvents fuel (simulated false [] straddling) duration = .timeout := by
  refine ⟨by decide, by decide, fun fuel duration => ?_⟩
  obtain ⟨_, _, hr, hn⟩ := CaptureEventsArm_spec (simulated false [] straddling) duration
  exact straddling_stuck _ (fun k => by rw [hr]; rfl) (by rw [hn]; rfl) fuel

/-- C6 as stated fails: on a port whose every write fails with EIO, CaptureEvents
still hands all four arming commands to the port, then performs a read and returns
the text it received; no error reaches the caller. -/
theorem C6_send_failure_counterexample :
    (unwritable "EIO".toList [] ["EDAT;\n".toList]).writeErr 0 = some "EIO".toList ∧
      (CaptureEvents 1 (unwritable "EIO".toList [] ["EDAT;\n".toList]) 30).val? =
        some "EDAT;\n".toList ∧
      (CaptureEvents 1 (unwritable "EIO".toList [] ["EDAT;\n".toList]) 30).state?.map
          (fun s => s.writes) =
        some ["DSCM\r\n".toList, "TIML\r\n".toList, "30000000\r\n".toList,
          "RUDS\r\n".toList] ∧
      (CaptureEvents 1 (unwritable "EIO".toList [] ["EDAT;\n".toList]) 30).state?.map
          (fun s => s.nreads) = some 1 := by
  refine ⟨by decide, by decide, by decide, by decide⟩

/-- C6, amended: a send failure while arming does not abort the capture. Whatever
writes fail, CaptureEvents hands all four arming commands to the port in order,
logs one entry carrying the write error for each command whose write failed, and
then runs the drain loop: the text it returns, and the number of reads it makes,
are those of the drain loop on the port's reads, the same as if no arming had taken
place. The write error is only logged, not returned. -/
theorem C6_send_failure_logged (b : bbtkv2) (d : Int) :
    (CaptureEventsArm b d).writes = b.writes ++
        ["DSCM".toList ++ CRLF, "TIML".toList ++ CRLF,
          SprintfD (wrapInt64 (d * 1000000)) ++ CRLF, "RUDS".toList ++ CRLF] ∧
      (CaptureEventsArm b d).logs = b.logs ++
        (sendLog b.DEBUG (b.writeErr b.writes.length) "DSCM".toList
            "CaptureEvents: DSCM %w".toList ++
          sendLog b.DEBUG (b.writeErr (b.writes.length + 1)) "TIML".toList
            "CaptureEvents: TIML %w".toList ++
          sendLog b.DEBUG (b.writeErr (b.writes.length + 2))
            (SprintfD (wrapInt64 (d * 1000000))) "CaptureEvents: %w".toList ++
          sendLog b.DEBUG (b.writeErr (b.writes.length + 3)) "RUDS".toList
            "CaptureEvents: RUDS %w".toList) ∧
      ∀ fuel : Nat,
        (CaptureEvents fuel b d).val? = (CaptureEventsDrain fuel newBuff [] b).val? ∧
        (CaptureEvents fuel b d).state?.map (fun s => s.nreads) =
          (CaptureEventsDrain fuel newBuff [] b).state?.map (fun s => s.nreads) := by
  obtain ⟨hw, hl, hr, hn⟩ := CaptureEventsArm_spec b d
  exact ⟨hw, hl, fun fuel => CaptureEventsDrain_congr fuel newBuff [] _ b hr hn⟩

/-- C7: whenever the drain loop of CaptureEvents stops and the call returns, the
returned text is the concatenation, in read order, of what each read of the loop
delivered; at least one read was made and none of them failed. What a read delivers
is the first n bytes of the 100-byte buffer after the call, n being the count it
returned (nothing for a read timeout). -/
theorem C7_capture_text_complete (fuel : Nat) (b : bbtkv2) (d : Int) (t : Bytes)
    (b2 : bbtkv2) (h : CaptureEvents fuel b d = .returned t b2) :
    b.nreads < b2.nreads ∧
      t = ((List.range' b.nreads (b2.nreads - b.nreads)).map (received b.reads)).flatten ∧
      (∀ k, b.nreads ≤ k → k < b2.nreads → ∃ chunk, b.reads k = .data chunk) ∧
      ∀ (s : bbtkv2) (buff : Bytes), s.reads = b.reads → buff.length = 100 →
        (portRead s buff).1.2.2.take (portRead s buff).1.1 = received b.reads s.nreads := by
  obtain ⟨_, _, hr, hn⟩ := CaptureEventsArm_spec b d
  obtain ⟨n, h1, h2, h3, _, _⟩ :=
    CaptureEventsDrain_returned fuel newBuff [] _ t b2 (by decide) h
  rw [hr, hn] at h2
  rw [hn] at h1 h3
  rw [hr] at h3
  refine ⟨by omega, ?_, h3, fun s buff hs hlen => ?_⟩
  · have : b2.nreads - b.nreads = n + 1 := by omega
    rw [this, h2]
    rfl
  · rw [← hs]
    exact (portRead_received s buff hlen).1

theorem C7_capture_text_complete_witness :
    CaptureEvents 3 (simulated false [] ["SDAT;\n3\n".toList, [], "1000\n5\nEDAT;\n".toList]) 30 =
        .returned "SDAT;\n3\n1000\n5\nEDAT;\n".toList
          { CaptureEventsArm
              (simulated false [] ["SDAT;\n3\n".toList, [], "1000\n5\nEDAT;\n".toList]) 30 with
            nreads := 3 } ∧
      "SDAT;\n3\n1000\n5\nEDAT;\n".toList =
        ((List.range' 0 3).map (received (simulated false []
          ["SDAT;\n3\n".toList, [], "1000\n5\nEDAT;\n".toList]).reads)).flatten :=
  ⟨rfl, (C7_capture_text_complete 3
    (simulated false [] ["SDAT;\n3\n".toList, [], "1000\n5\nEDAT;\n".toList]) 30
    "SDAT;\n3\n1000\n5\nEDAT;\n".toList _ rfl).2.1⟩

/-- C8 on the code: after the 8-byte chunk `SDAT;\n3\n`, a read that delivers the
single byte E leaves `EDAT;\n3\n` at the start of the read buffer, and the drain
loop of CaptureEvents stops there, after two reads: the call returns
`SDAT;\n3\nE`, which does not contain the marker EDAT. -/
theorem C8_stale_buffer_stops_drain :
    (CaptureEvents 2 (simulated false [] staleChunks) 30).val? = some "SDAT;\n3\nE".toList ∧
      (CaptureEvents 2 (simulated false [] staleChunks) 30).state?.map (fun s => s.nreads) =
        some 2 ∧
      stringsContains "SDAT;\n3\nE".toList "EDAT".toList = false ∧
      stringsContains staleChunks.flatten "EDAT".toList = false := by
  refine ⟨by decide, by decide, by decide, by decide⟩

theorem splitAtDelim_none (delim : Char) (p : Bytes) (h : delim ∉ p) :
    splitAtDelim delim p = none := by
  induction p with
  | nil => rfl
  | cons c cs ih =>
    have hc : c ≠ delim := fun e => h (by simp [e])
    have hcs : delim ∉ cs := fun e => h (by simp [e])
    simp [splitAtDelim, hc, ih hcs]

theorem splitAtDelim_some (delim : Char) (p : Bytes) :
    ∀ s rest, splitAtDelim delim p = some (s, rest) →
      ∃ l, s = l ++ [delim] ∧ delim ∉ l ∧ p = l ++ delim :: rest := by
  induction p with
  | nil =>
    intro s rest h
    simp [splitAtDelim] at h
  | cons c cs ih =>
    intro s rest h
    by_cases hc : c = delim
    · simp only [splitAtDelim, if_pos hc, Option.some.injEq, Prod.mk.injEq] at h
      obtain ⟨h1, h2⟩ := h
      exact ⟨[], by simp [← h1, hc], by simp, by simp [← h2, hc]⟩
    · simp only [splitAtDelim, if_neg hc] at h
      cases hs : splitAtDelim delim cs with
      | none => simp [hs] at h
      | some q =>
        obtain ⟨s1, rest1⟩ := q
        simp only [hs, Option.some.injEq, Prod.mk.injEq] at h
        obtain ⟨h1, h2⟩ := h
        obtain ⟨l, e1, e2, e3⟩ := ih s1 rest1 hs
        refine ⟨c :: l, by simp [← h1, e1], ?_, by simp [← h2, e3]⟩
        intro hm
        rcases List.mem_cons.mp hm with hm | hm
        · exact hc hm.symm
        · exact e2 hm

theorem ReadString_ok (b : bbtkv2) (s : Bytes) (h : (ReadString b '\n').1 = (s, none)) :
    ∃ l rest, s = l ++ ['\n'] ∧ '\n' ∉ l ∧ b.pending = l ++ '\n' :: rest := by
  unfold ReadString at h
  cases hs : splitAtDelim '\n' b.pending with
  | none => simp [hs] at h
  | some q =>
    obtain ⟨s1, rest⟩ := q
    simp only [hs, Prod.mk.injEq, and_true] at h
    obtain ⟨l, e1, e2, e3⟩ := splitAtDelim_some '\n' b.pending s1 rest hs
    exact ⟨l, rest, by rw [← h, e1], e2, e3⟩

theorem sliceTo_init (l : Bytes) (c : Char) :
    sliceTo (l ++ [c]) (((l ++ [c]).length : Int) - 1) = some l := by
  have h1 : (((l ++ [c]).length : Int) - 1) = (l.length : Int) := by simp
  rw [h1]
  unfold sliceTo
  rw [if_pos ⟨by omega, by simp⟩]
  simp

/-- C11: ReadLine returns the next line with its terminator stripped. When the
pending input is `l`, one LF and `rest`, with no LF in `l`, it returns `l` with a
nil error and leaves exactly `rest` unread; nothing but that LF is removed, so a CR
in front of it stays in `l`. When no LF is pending (the input ends, or the read
fails, before one is seen) it returns the empty string with the non-nil error
`Readline: ` followed by the read error. Whenever the slice `s[:len(s)-1]` is
taken, that is when ReadString returned a nil error, `s` is not empty: it is a line
followed by LF, the slice is in range and yields that line, which is what ReadLine
returns. On an empty string the same slice would panic. -/
theorem C11_ReadLine_strips_terminator (b : bbtkv2) :
    (∀ l rest : Bytes, '\n' ∉ l → b.pending = l ++ '\n' :: rest →
        (ReadLine b).1 = (l, none) ∧ (ReadLine b).2.pending = rest) ∧
      ('\n' ∉ b.pending →
        (ReadLine b).1 = ([], some ("Readline: ".toList ++ b.readErr)) ∧
          (ReadLine b).2.pending = []) ∧
      (∀ s : Bytes, (ReadString b '\n').1 = (s, none) →
        s ≠ [] ∧ sliceTo s ((s.length : Int) - 1) = some (s.take (s.length - 1)) ∧
          (ReadLine b).1 = (s.take (s.length - 1), none) ∧
          s = s.take (s.length - 1) ++ ['\n']) ∧
      sliceTo [] ((([] : Bytes).length : Int) - 1) = none := by
  refine ⟨fun l rest hl hp => ?_, fun hn => ?_, fun s hs => ?_, by decide⟩
  · rw [ReadLine_line b l rest hl hp]
    exact ⟨rfl, rfl⟩
  · have hs := splitAtDelim_none '\n' b.pending hn
    constructor <;> simp [ReadLine, ReadString, hs]
  · obtain ⟨l, rest, e1, e2, e3⟩ := ReadString_ok b s hs
    have ht : s.take (s.length - 1) = l := by simp [e1]
    rw [ht]
    refine ⟨by simp [e1], ?_, ?_, e1⟩
    · rw [e1]
      exact sliceTo_init l '\n'
    · rw [ReadLine_line b l rest e2 e3]

theorem C11_ReadLine_strips_terminator_witness :
    '\n' ∉ "BBTK;\r".toList ∧
      (simulated false "BBTK;\r\nECHO\n".toList []).pending =
        "BBTK;\r".toList ++ '\n' :: "ECHO\n".toList ∧
      (ReadLine (simulated false "BBTK;\r\nECHO\n".toList [])).1 = ("BBTK;\r".toList, none) ∧
      (ReadLine (simulated false "BBTK;\r\nECHO\n".toList [])).2.pending = "ECHO\n".toList ∧
      '\n' ∉ (simulated false "BBTK;".toList []).pending ∧
      (ReadLine (simulated false "BBTK;".toList [])).1 =
        ([], some ("Readline: ".toList ++ (simulated false "BBTK;".toList []).readErr)) :=
  ⟨by decide, by decide,
    ((C11_ReadLine_strips_terminator (simulated false "BBTK;\r\nECHO\n".toList [])).1
      "BBTK;\r".toList "ECHO\n".toList (by decide) (by decide)).1,
    ((C11_ReadLine_strips_terminator (simulated false "BBTK;\r\nECHO\n".toList [])).1
      "BBTK;\r".toList "ECHO\n".toList (by decide) (by decide)).2,
    by decide,
    ((C11_ReadLine_strips_terminator (simulated false "BBTK;".toList [])).2.1 (by decide)).1⟩

theorem CaptureEventsSend_ok (b : bbtkv2) (cmd format : Bytes)
    (h : b.writeErr b.writes.length = none) :
    CaptureEventsSend b cmd format =
      { b with
        writes := b.writes ++ [cmd ++ CRLF]
        logs := b.logs ++
          (if b.DEBUG then [⟨"SendCommand: \"%v\"\n".toList, cmd⟩] else []) } := by
  obtain ⟨dbg, werr, ws, pend, rerr, rds, n, lg⟩ := b
  simp only at h
  by_cases hd : dbg = true
  · simp only [CaptureEventsSend, SendCommand, logPrintf, hd, if_true, h, CRLF]
    rfl
  · have hd2 : dbg = false := by simpa using hd
    subst hd2
    simp [CaptureEventsSend, SendCommand, h, CRLF]

theorem CaptureEventsArm_ok (b : bbtkv2) (d : Int) (hok : ∀ k, b.writeErr k = none) :
    CaptureEventsArm b d =
      { b with
        writes := b.writes ++ armingCommands d
        logs := b.logs ++ (if b.DEBUG then armingDebugLog d else []) } := by
  unfold CaptureEventsArm
  simp only
  have step : ∀ (s : bbtkv2) (cmd format : Bytes), s.writeErr = b.writeErr →
      CaptureEventsSend s cmd format =
        { s with
          writes := s.writes ++ [cmd ++ CRLF]
          logs := s.logs ++
            (if s.DEBUG then [⟨"SendCommand: \"%v\"\n".toList, cmd⟩] else []) } :=
    fun s cmd format hs => CaptureEventsSend_ok s cmd format (by rw [hs]; exact hok _)
  rw [step b _ _ rfl]
  simp only [step]
  by_cases hd : b.DEBUG <;> simp [hd, armingCommands, armingDebugLog]

theorem CaptureEventsDrain_state (fuel : Nat) :
    ∀ (buff text : Bytes) (b b2 : bbtkv2),
      (CaptureEventsDrain fuel buff text b).state? = some b2 →
        b2.writes = b.writes ∧ b.nreads < b2.nreads := by
  induction fuel with
  | zero =>
    intro buff text b b2 h
    simp [CaptureEventsDrain, Run.state?] at h
  | succ fuel ih =>
    intro buff text b b2 h
    cases hr : b.reads b.nreads with
    | fail err =>
      rw [CaptureEventsDrain_fail fuel b buff text err hr] at h
      simp only [Run.state?, Option.some.injEq] at h
      subst h
      exact ⟨rfl, Nat.lt_succ_self _⟩
    | data chunk =>
      rw [CaptureEventsDrain_data fuel b buff text chunk hr] at h
      split at h
      · simp only [Run.state?, Option.some.injEq] at h
        subst h
        exact ⟨rfl, Nat.lt_succ_self _⟩
      · obtain ⟨h1, h2⟩ := ih _ _ _ b2 h
        exact ⟨h1, by simp only at h2; omega⟩

theorem portRead_state (b : bbtkv2) (buff : Bytes) :
    (portRead b buff).2 = { b with nreads := b.nreads + 1 } := by
  cases hr : b.reads b.nreads with
  | data chunk => rw [portRead_data b buff chunk hr]
  | fail err => rw [portRead_fail b buff err hr]

theorem older_SendCommand_ok (g : Gobbtkv2.bbtkv2) (cmd : Bytes)
    (hin : ∀ k, g.resetInErr k = none) (hout : ∀ k, g.resetOutErr k = none) :
    Gobbtkv2.SendCommand g cmd =
      (g.base.writeErr g.base.writes.length,
        { g with
          base := { g.base with
            writes := g.base.writes ++ [cmd ++ CRLF]
            logs := g.base.logs ++ [⟨"SendCommand: \"%v\"\n".toList, cmd⟩] }
          nResetIn := g.nResetIn + 1
          nResetOut := g.nResetOut + 1 }) := by
  simp only [Gobbtkv2.SendCommand, hin, hout, Gobbtkv2.DEBUG, if_true, logPrintf, CRLF]
  rfl

theorem older_loop_state (fuel : Nat) :
    ∀ (buff text : Bytes) (g : Gobbtkv2.bbtkv2),
      (Gobbtkv2.CaptureEventsLoop fuel buff text g).state.base.writes = g.base.writes ∧
        (Gobbtkv2.CaptureEventsLoop fuel buff text g).state.base.nreads ≤
          g.base.nreads + fuel := by
  induction fuel with
  | zero =>
    intro buff text g
    exact ⟨rfl, Nat.le_refl _⟩
  | succ fuel ih =>
    intro buff text g
    have hs := portRead_state g.base buff
    rw [Gobbtkv2.CaptureEventsLoop]
    rcases hp : portRead g.base buff with ⟨⟨n, e, buff1⟩, p1⟩
    rw [hp] at hs
    simp only at hs
    subst hs
    cases e with
    | some err =>
      refine ⟨rfl, ?_⟩
      show g.base.nreads + 1 ≤ g.base.nreads + (fuel + 1)
      omega
    | none =>
      obtain ⟨h1, h2⟩ := ih buff1 (if n > 0 then text ++ buff1.take n else text)
        { g with base := { g.base with nreads := g.base.nreads + 1 } }
      simp only at h1 h2 ⊢
      exact ⟨h1, by omega⟩

theorem older_CaptureEvents_ok (fuel : Nat) (g : Gobbtkv2.bbtkv2) (d : Int)
    (hok : ∀ k, g.base.writeErr k = none)
    (hin : ∀ k, g.resetInErr k = none) (hout : ∀ k, g.resetOutErr k = none) :
    Gobbtkv2.CaptureEvents fuel g d =
      Gobbtkv2.CaptureEventsLoop fuel newBuff []
        { g with
          base := { g.base with
            writes := g.base.writes ++ armingCommands d
            logs := g.base.logs ++ armingDebugLog d }
          nResetIn := g.nResetIn + 4
          nResetOut := g.nResetOut + 4 } := by
  have step : ∀ (s : Gobbtkv2.bbtkv2) (cmd : Bytes), s.resetInErr = g.resetInErr →
      s.resetOutErr = g.resetOutErr →
      Gobbtkv2.SendCommand s cmd =
        (s.base.writeErr s.base.writes.length,
          { s with
            base := { s.base with
              writes := s.base.writes ++ [cmd ++ CRLF]
              logs := s.base.logs ++ [⟨"SendCommand: \"%v\"\n".toList, cmd⟩] }
            nResetIn := s.nResetIn + 1
            nResetOut := s.nResetOut + 1 }) :=
    fun s cmd h1 h2 => older_SendCommand_ok s cmd (by rw [h1]; exact hin) (by rw [h2]; exact hout)
  unfold Gobbtkv2.CaptureEvents
  simp only [step, hok]
  simp [armingCommands, armingDebugLog]

/-- C5 as stated fails on the older copy `src/gobbtkv2.go`: when the first
`ResetInputBuffer` fails, its SendCommand returns before writing DSCM, the error is
dropped, and CaptureEvents enters its read loop having written only TIML, the
duration and RUDS. Every write that was made succeeded, yet the port did not
receive the four commands. -/
theorem C5_failed_reset_counterexample :
    (Gobbtkv2.CaptureEvents 0
        (Gobbtkv2.simulated (simulated false [] []) (failsFirst "EIO".toList) neverFails)
        30).state.base.writes =
        ["TIML\r\n".toList, "30000000\r\n".toList, "RUDS\r\n".toList] ∧
      (Gobbtkv2.CaptureEvents 0
        (Gobbtkv2.simulated (simulated false [] []) (failsFirst "EIO".toList) neverFails)
        30).state.base.nreads = 0 ∧
      (Gobbtkv2.CaptureEvents 2
        (Gobbtkv2.simulated (simulated false [] []) (failsFirst "EIO".toList) neverFails)
        30).state.base.writes =
        ["TIML\r\n".toList, "30000000\r\n".toList, "RUDS\r\n".toList] ∧
      (List.range 3).map (simulated false [] []).writeErr = [none, none, none] ∧
      armingCommands 30 =
        ["DSCM\r\n".toList, "TIML\r\n".toList, "30000000\r\n".toList, "RUDS\r\n".toList] := by
  refine ⟨by decide, by decide, by decide, by decide, by decide⟩

/-- C5, amended: for a duration d >= 0 whose product with 1000000 fits a 64-bit
signed integer, the text sent for the duration is the canonical decimal numeral of
d*1000000, and on a port on which no write fails (and, for the older copy, no
buffer reset fails either) CaptureEvents hands to the port exactly DSCM, TIML, that
numeral and RUDS, in this order, each followed by CR LF, before it performs any
read, and nothing else.
Newer copy: the call is the read loop started on the port with these four writes
added and no read made; whenever the call ends, by return or in log.Fatal, the
writes are these four added to the earlier ones and at least one read was made; and
when the very first read fails, the call ends there with the four writes made.
Older copy: after any number of loop iterations the writes are these four added to
the earlier ones, and on entry to the loop no read has been made. -/
theorem C5_CaptureEvents_arms_before_reading (d : Int) (hd : 0 ≤ d)
    (hfit : d * 1000000 < 2 ^ 63) :
    IsCanonicalDecimal (SprintfD (wrapInt64 (d * 1000000))) (d * 1000000).toNat ∧
      (∀ b : bbtkv2, (∀ k, b.writeErr k = none) →
        (∀ fuel : Nat, CaptureEvents fuel b d =
          CaptureEventsDrain fuel newBuff []
            { b with
              writes := b.writes ++ armingCommands d
              logs := b.logs ++ (if b.DEBUG then armingDebugLog d else []) }) ∧
        (∀ (fuel : Nat) (b2 : bbtkv2), (CaptureEvents fuel b d).state? = some b2 →
          b2.writes = b.writes ++ armingCommands d ∧ b.nreads < b2.nreads) ∧
        (∀ (fuel : Nat) (err : GoError), b.reads b.nreads = .fail err →
          (CaptureEvents (fuel + 1) b d).val? = none ∧
            (CaptureEvents (fuel + 1) b d).state?.map (fun s => (s.writes, s.nreads)) =
              some (b.writes ++ armingCommands d, b.nreads + 1))) ∧
      (∀ g : Gobbtkv2.bbtkv2, (∀ k, g.base.writeErr k = none) →
        (∀ k, g.resetInErr k = none) → (∀ k, g.resetOutErr k = none) →
        (∀ fuel : Nat, (Gobbtkv2.CaptureEvents fuel g d).state.base.writes =
          g.base.writes ++ armingCommands d) ∧
        (Gobbtkv2.CaptureEvents 0 g d).state.base.nreads = g.base.nreads ∧
        (∀ fuel : Nat, (Gobbtkv2.CaptureEvents fuel g d).state.base.nreads ≤
          g.base.nreads + fuel)) := by
  have h0 : 0 ≤ d * 1000000 := by positivity
  refine ⟨?_, fun b hok => ?_, fun g hok hin hout => ?_⟩
  · rw [wrapInt64_of_fits _ h0 hfit]
    have hcast : ((d * 1000000).toNat : Int) = d * 1000000 := Int.toNat_of_nonneg h0
    have hlt : (d * 1000000).toNat < 2 ^ 64 := by omega
    have := SprintfD_canonical (d * 1000000).toNat hlt
    rwa [hcast] at this
  · have harm := CaptureEventsArm_ok b d hok
    have heq : ∀ fuel : Nat, CaptureEvents fuel b d =
        CaptureEventsDrain fuel newBuff []
          { b with
            writes := b.writes ++ armingCommands d
            logs := b.logs ++ (if b.DEBUG then armingDebugLog d else []) } := by
      intro fuel
      unfold CaptureEvents
      rw [harm]
      rfl
    refine ⟨heq, fun fuel b2 h => ?_, fun fuel err hr => ?_⟩
    · rw [heq] at h
      exact CaptureEventsDrain_state fuel _ _ _ b2 h
    · have hf := CaptureEventsDrain_fail fuel
        { b with
          writes := b.writes ++ armingCommands d
          logs := b.logs ++ (if b.DEBUG then armingDebugLog d else []) } newBuff [] err hr
      rw [heq, hf]
      exact ⟨rfl, rfl⟩
  · have heq := fun fuel => older_CaptureEvents_ok fuel g d hok hin hout
    refine ⟨fun fuel => ?_, ?_, fun fuel => ?_⟩
    · rw [heq]
      exact (older_loop_state fuel _ _ _).1
    · rw [heq]
      rfl
    · rw [heq]
      exact (older_loop_state fuel _ _ _).2

theorem C5_CaptureEvents_arms_before_reading_witness :
    (0 : Int) ≤ 30 ∧ (30 : Int) * 1000000 < 2 ^ 63 ∧
      (CaptureEvents 1 (simulated false [] ["EDAT;\n".toList]) 30).state?.map
          (fun s => (s.writes, s.nreads)) =
        some (["DSCM\r\n".toList, "TIML\r\n".toList, "30000000\r\n".toList,
          "RUDS\r\n".toList], 1) ∧
      (Gobbtkv2.CaptureEvents 0
        (Gobbtkv2.simulated (simulated false [] []) neverFails neverFails) 30).state.base.writes =
        ["DSCM\r\n".toList, "TIML\r\n".toList, "30000000\r\n".toList, "RUDS\r\n".toList] :=
  ⟨by decide, by decide,
    (congrArg (fun r => r.state?.map (fun s => (s.writes, s.nreads)))
      (((C5_CaptureEvents_arms_before_reading 30 (by decide) (by decide)).2.1
        (simulated false [] ["EDAT;\n".toList]) (fun _ => rfl)).1 1)).trans (by decide),
    (((C5_CaptureEvents_arms_before_reading 30 (by decide) (by decide)).2.2
      (Gobbtkv2.simulated (simulated false [] []) neverFails neverFails)
      (fun _ => rfl) (fun _ => rfl) (fun _ => rfl)).1 0).trans (by decide)⟩

end Bbtkv2
